import Mathlib

/-!
# Docker formula runner (`pkg/formula/runner/docker/runner.go`)

A shallow embedding of `RunManager.Run`, `RunManager.runDocker` and
`RunManager.setEnvs`.

The Go code is effectful: it calls collaborators (`PreRun`, `PostRun`,
`Resolve`, `Inputs`, `env.Find`, the file `Exists`/`Write`/`Append`), asks
whether standard output is a terminal, and finally runs a subprocess.  Every
collaborator is embedded as a function on an abstract host state `σ`; the
embedding itself records each call in a chronological event log, so that
"is called", "is never called" and "is called after" are statements about
that log.
-/

namespace Docker

/-! ## Data model -/

/-- A Go `error` value, identified by the text `err.Error()` returns. -/
structure GoError where
  msg : String
  deriving DecidableEq, Repr

/-- Modelled from the spec: `api.TermInputType`, an integer enumeration of the
input modes (its declaration is outside this file).  `Other` stands for an
integer value that names no known mode. -/
inductive TermInputType where
  | Prompt
  | Stdin
  | Flag
  | Other (code : Nat)
  deriving DecidableEq, Repr

/-- Modelled from the spec: `formula.Config`, of which the runner reads only
the extra mounts.  `none` is Go's `nil` slice. -/
structure Config where
  Volumes : Option (List String)
  deriving DecidableEq, Repr

/-- Modelled from the spec: `formula.Setup`, of which the runner reads `Pwd`,
`Config.Volumes` and `ContainerId`. -/
structure Setup where
  Pwd : String
  Config : Docker.Config
  ContainerId : String
  deriving DecidableEq, Repr

/-- Modelled from the spec: `formula.Definition`, the identity of the formula
to run.  The runner only hands it to `PreRun`. -/
structure Definition where
  Path : String
  deriving DecidableEq, Repr

/-- Modelled from the spec: the parsed flags (`*pflag.FlagSet`).  The runner
only hands them to the input strategy. -/
structure FlagSet where
  values : List (String × String)
  deriving DecidableEq, Repr

/-- Modelled from the spec: `env.Holder`, of which the runner reads the
current-context string. -/
structure EnvHolder where
  Current : String
  deriving DecidableEq, Repr

/-- What a standard stream of an `exec.Cmd` is bound to. -/
inductive StdStream where
  | unset
  | osStdin
  | osStdout
  | osStderr
  deriving DecidableEq, Repr

/-- The fields of `exec.Cmd` the runner touches. -/
structure Cmd where
  Path : String
  Args : List String
  Env : List String
  Stdin : StdStream
  Stdout : StdStream
  Stderr : StdStream
  deriving DecidableEq, Repr

/-- Go's `exec.Command(name, arg...)`: `Args` holds the name followed by the
arguments, the environment is nil and no stream is bound.  `Path` is kept as
the name: the lookup of the executable is not modelled. -/
def execCommand (name : String) (args : List String) : Cmd :=
  { Path := name, Args := name :: args, Env := [],
    Stdin := .unset, Stdout := .unset, Stderr := .unset }

/-- The argument vector proper: `Args` without the leading command name. -/
def Cmd.argv (cmd : Cmd) : List String := cmd.Args.tail

/-! ## Events and the host -/

/-- One call to a collaborator, as recorded by the embedding. -/
inductive Event where
  | preRun (d : Definition)
  | postRun (setup : Setup) (forceRemove : Bool)
  | resolve (inputType : TermInputType)
  | inputs (cmd : Cmd) (setup : Setup)
  | envFind
  | fileExists (path : String)
  | fileWrite (path : String) (content : String)
  | fileAppend (path : String) (content : String)
  | cmdRun (cmd : Cmd)
  | promptError (text : String)
  deriving DecidableEq, Repr

/-- Is the event a call to `PostRun`? -/
def Event.isPostRun : Event → Bool
  | .postRun _ _ => true
  | _ => false

/-- Is the event an execution of the subprocess? -/
def Event.isCmdRun : Event → Bool
  | .cmdRun _ => true
  | _ => false

/-- Is the event a `Write` or an `Append` on a file? -/
def Event.isFileMutation : Event → Bool
  | .fileWrite _ _ => true
  | .fileAppend _ _ => true
  | _ => false

/-- Is the event one of the calls made while the invocation is built
(`Resolve`, `Inputs`, `env.Find`, file `Exists`/`Write`/`Append`)? -/
def Event.isBuild : Event → Bool
  | .resolve _ => true
  | .inputs _ _ => true
  | .envFind => true
  | .fileExists _ => true
  | .fileWrite _ _ => true
  | .fileAppend _ _ => true
  | _ => false

/-- The host state together with the chronological log of collaborator
calls (oldest first). -/
structure World (σ : Type) where
  st : σ
  log : List Event

/-- Record one event at the end of the log. -/
def World.emit {σ : Type} (w : World σ) (e : Event) : World σ :=
  { w with log := w.log ++ [e] }

/-- The strategy `formula.InputRunner`: `Inputs(cmd, setup, flags) error`.
It receives the command by pointer, so it may change any field of it. -/
structure InputRunner (σ : Type) where
  Inputs : Cmd → Setup → FlagSet → σ → (Option GoError × Cmd) × σ

/-- The interface `stream.FileWriteExistAppender`. -/
structure FileWriteExistAppender (σ : Type) where
  Exists : String → σ → Bool
  Write : String → String → σ → Option GoError × σ
  Append : String → String → σ → Option GoError × σ

/-- The struct `RunManager`: its embedded interfaces and fields. -/
structure RunManager (σ : Type) where
  PostRun : Setup → Bool → σ → Option GoError × σ
  Resolve : TermInputType → σ → Except GoError (InputRunner σ) × σ
  PreRun : Definition → σ → Except GoError Setup × σ
  file : FileWriteExistAppender σ
  env : σ → Except GoError EnvHolder × σ
  homeDir : String

/-- The names of the five variables, constants of package `formula` declared
outside this file; they are taken as parameters. -/
structure EnvNames where
  DockerExecutionEnv : String
  PwdEnv : String
  CtxEnv : String
  Env : String
  VerboseEnv : String
  deriving DecidableEq, Repr

/-- What the runner uses from outside its own package and file: the
platform's `dockerCmd` constant, the names of package `formula`, terminal
detection on standard output, subprocess execution (`exec.Cmd.Run`) and the
diagnostic sink (`prompt.Error`). -/
structure Host (σ : Type) where
  dockerCmd : String
  names : EnvNames
  isTerminal : σ → Bool
  run : Cmd → σ → Option GoError × σ
  promptError : String → σ → σ

/-! ## The code -/

/-- The constant `envFile`. -/
def envFile : String := ".env"

/-- The constant `dockerPwd`. -/
def dockerPwd : String := "/app"

/-- Modelled from the spec: `fmt.Sprintf(formula.EnvPattern, key, value)`; the
pattern is declared outside this file and the spec gives the line format
`KEY=VALUE`. -/
def envPattern (key value : String) : String := key ++ "=" ++ value

/-- Go's `strconv.FormatBool`. -/
def formatBool : Bool → String
  | true => "true"
  | false => "false"

/-- The mount list of `runDocker` (source lines 96-105). -/
def volumes (homeDir : String) (setup : Setup) : List String :=
  let vols := [setup.Pwd ++ ":/app", homeDir ++ "/.rit:/root/.rit"]
  match setup.Config.Volumes with
  | none => vols
  | some extra => if extra.length != 0 then vols ++ extra else vols

/-- The argument vector of `runDocker` (source lines 107-127), with the
answer of terminal detection as the input `tty`. -/
def dockerArgs (homeDir : String) (setup : Setup) (inputType : TermInputType)
    (tty : Bool) : List String :=
  let args := ["run", "--rm", "--env-file", envFile]
  let args := if tty && inputType != TermInputType.Stdin then args ++ ["-it"] else args
  let args := (volumes homeDir setup).foldl (fun acc volume => acc ++ ["-v", volume]) args
  args ++ ["--name", setup.ContainerId, setup.ContainerId]

/-- The five variables `setEnvs` appends to `cmd.Env` (source lines 157-162),
in the order of the `append` call. -/
def requiredEnvs (names : EnvNames) (pwd : String) (current : String)
    (verbose : Bool) : List String :=
  let dockerEnv := envPattern names.DockerExecutionEnv "true"
  let pwdEnv := envPattern names.PwdEnv pwd
  let ctxEnv := envPattern names.CtxEnv current
  let env := envPattern names.Env current
  let verboseEnv := envPattern names.VerboseEnv (formatBool verbose)
  [pwdEnv, ctxEnv, verboseEnv, dockerEnv, env]

/-- One round of the loop of `setEnvs` (source lines 165-173): `Write` when the
file does not exist, `Append` otherwise. -/
def writeEnv {σ : Type} (ru : RunManager σ) (e : String) (w : World σ) :
    Option GoError × World σ :=
  let w := w.emit (.fileExists envFile)
  if !ru.file.Exists envFile w.st then
    let r := ru.file.Write envFile (e ++ "\n") w.st
    (r.1, { st := r.2, log := w.log ++ [.fileWrite envFile (e ++ "\n")] })
  else
    let r := ru.file.Append envFile (e ++ "\n") w.st
    (r.1, { st := r.2, log := w.log ++ [.fileAppend envFile (e ++ "\n")] })

/-- The loop of `setEnvs` (source lines 164-174) over the entries of
`cmd.Env`: it stops at the first failure. -/
def writeEnvs {σ : Type} (ru : RunManager σ) : List String → World σ →
    Option GoError × World σ
  | [], w => (none, w)
  | e :: es, w =>
    match writeEnv ru e w with
    | (some err, w1) => (some err, w1)
    | (none, w1) => writeEnvs ru es w1

/-- The method `RunManager.setEnvs`.  The command is passed by pointer: the
result carries the command as the call leaves it. -/
def setEnvs {σ : Type} (ru : RunManager σ) (host : Host σ) (cmd : Cmd)
    (pwd : String) (verbose : Bool) (w : World σ) :
    (Option GoError × Cmd) × World σ :=
  let r := ru.env w.st
  let w := { st := r.2, log := w.log ++ [.envFind] }
  match r.1 with
  | .error err => ((some err, cmd), w)
  | .ok envHolder =>
    let cmd := { cmd with Env := cmd.Env ++ requiredEnvs host.names pwd envHolder.Current verbose }
    let r := writeEnvs ru cmd.Env w
    ((r.1, cmd), r.2)

/-- The command of `runDocker` before the strategy sees it (source lines
130-133): `exec.Command(dockerCmd, args...)` with the three standard streams
bound to those of the host process. -/
def baseCmd (dockerCmd : String) (args : List String) : Cmd :=
  { execCommand dockerCmd args with
    Stdin := .osStdin, Stdout := .osStdout, Stderr := .osStderr }

/-- The method `RunManager.runDocker`. -/
def runDocker {σ : Type} (ru : RunManager σ) (host : Host σ) (setup : Setup)
    (inputType : TermInputType) (verbose : Bool) (flags : FlagSet) (w : World σ) :
    Except GoError Cmd × World σ :=
  let args := dockerArgs ru.homeDir setup inputType (host.isTerminal w.st)
  let cmd := baseCmd host.dockerCmd args
  let r := ru.Resolve inputType w.st
  let w := { st := r.2, log := w.log ++ [.resolve inputType] }
  match r.1 with
  | .error err => (.error err, w)
  | .ok inputRunner =>
    let r := inputRunner.Inputs cmd setup flags w.st
    let w := { st := r.2, log := w.log ++ [.inputs cmd setup] }
    match r.1 with
    | (some err, _) => (.error err, w)
    | (none, cmd) =>
      match setEnvs ru host cmd dockerPwd verbose w with
      | ((some err, _), w) => (.error err, w)
      | ((none, cmd), w) => (.ok cmd, w)

/-- The deferred function of `Run` (source lines 76-81): `PostRun(setup, true)`,
its error going to `prompt.Error`. -/
def deferred {σ : Type} (ru : RunManager σ) (host : Host σ) (setup : Setup)
    (w : World σ) : World σ :=
  let r := ru.PostRun setup true w.st
  let w := { st := r.2, log := w.log ++ [.postRun setup true] }
  match r.1 with
  | some err => { st := host.promptError err.msg w.st, log := w.log ++ [.promptError err.msg] }
  | none => w

/-- The body of `Run` after the `defer` statement (source lines 83-92). -/
def runBody {σ : Type} (ru : RunManager σ) (host : Host σ) (setup : Setup)
    (inputType : TermInputType) (verbose : Bool) (flags : FlagSet) (w : World σ) :
    Option GoError × World σ :=
  match runDocker ru host setup inputType verbose flags w with
  | (.error err, w) => (some err, w)
  | (.ok cmd, w) =>
    let r := host.run cmd w.st
    (r.1, { st := r.2, log := w.log ++ [.cmdRun cmd] })

/-- The method `RunManager.Run`: the returned error (`none` is Go's `nil`) and
the world it leaves. -/
def Run {σ : Type} (ru : RunManager σ) (host : Host σ) (d : Definition)
    (inputType : TermInputType) (verbose : Bool) (flags : FlagSet) (w : World σ) :
    Option GoError × World σ :=
  let r := ru.PreRun d w.st
  let w := { st := r.2, log := w.log ++ [.preRun d] }
  match r.1 with
  | .error err => (some err, w)
  | .ok setup =>
    let r := runBody ru host setup inputType verbose flags w
    (r.1, deferred ru host setup r.2)

/-! ## Intermediate worlds of a run -/

/-- The world after the `env.Find` call of `setEnvs`. -/
def afterFind {σ : Type} (ru : RunManager σ) (w : World σ) : World σ :=
  { st := (ru.env w.st).2, log := w.log ++ [.envFind] }

/-- The world after the `Resolve` call of `runDocker`. -/
def afterResolve {σ : Type} (ru : RunManager σ) (inputType : TermInputType)
    (w : World σ) : World σ :=
  { st := (ru.Resolve inputType w.st).2, log := w.log ++ [.resolve inputType] }

/-- The command `runDocker` hands to the strategy. -/
def builtCmd {σ : Type} (ru : RunManager σ) (host : Host σ) (setup : Setup)
    (inputType : TermInputType) (w : World σ) : Cmd :=
  baseCmd host.dockerCmd (dockerArgs ru.homeDir setup inputType (host.isTerminal w.st))

/-- The world after the `Inputs` call of `runDocker`. -/
def afterInputs {σ : Type} (ru : RunManager σ) (host : Host σ) (setup : Setup)
    (inputType : TermInputType) (flags : FlagSet) (runner : InputRunner σ)
    (w : World σ) : World σ :=
  { st := (runner.Inputs (builtCmd ru host setup inputType w) setup flags
            (ru.Resolve inputType w.st).2).2,
    log := w.log ++ [.resolve inputType] ++ [.inputs (builtCmd ru host setup inputType w) setup] }

/-- The world after the `PreRun` call of `Run`. -/
def afterPreRun {σ : Type} (ru : RunManager σ) (d : Definition) (w : World σ) : World σ :=
  { st := (ru.PreRun d w.st).2, log := w.log ++ [.preRun d] }

/-! ## An in-memory file store and scripted collaborators

Closed instances of the collaborators, used wherever a statement is about
file contents or needs a concrete run. -/

/-- Modelled from the spec: the in-memory file store the spec asks tests to
use for the environment channel.  `files` maps a path to the content of the
file, `none` when there is no such file; `quota` is the number of `Write` and
`Append` calls that will still succeed (`none`: no limit), which is how a
failing store is obtained. -/
structure MemFS where
  files : String → Option String
  quota : Option Nat

/-- The error of a store whose quota is used up. -/
def errNoSpace : GoError := { msg := "no space left on device" }

/-- The error of appending to a file that does not exist. -/
def errNotExist : GoError := { msg := "no such file" }

/-- The store with no file and no limit. -/
def MemFS.empty : MemFS := { files := fun _ => none, quota := none }

/-- Take one unit of the quota, if any is left. -/
def MemFS.spend (fs : MemFS) : Option MemFS :=
  match fs.quota with
  | none => some fs
  | some 0 => none
  | some (n + 1) => some { fs with quota := some n }

/-- Set the content of a file. -/
def MemFS.put (fs : MemFS) (path content : String) : MemFS :=
  { fs with files := fun p => if p = path then some content else fs.files p }

/-- `Exists` on the store. -/
def MemFS.Exists (path : String) (fs : MemFS) : Bool :=
  (fs.files path).isSome

/-- `Write` on the store: create or replace the file; a store out of quota
fails and changes nothing. -/
def MemFS.Write (path content : String) (fs : MemFS) : Option GoError × MemFS :=
  match fs.spend with
  | none => (some errNoSpace, fs)
  | some fs1 => (none, fs1.put path content)

/-- `Append` on the store: add to the end of an existing file; a store out of
quota fails and changes nothing. -/
def MemFS.Append (path content : String) (fs : MemFS) : Option GoError × MemFS :=
  match fs.files path with
  | none => (some errNotExist, fs)
  | some old =>
    match fs.spend with
    | none => (some errNoSpace, fs)
    | some fs1 => (none, fs1.put path (old ++ content))

/-- The store as a `stream.FileWriteExistAppender`. -/
def memFile : FileWriteExistAppender MemFS :=
  { Exists := MemFS.Exists, Write := MemFS.Write, Append := MemFS.Append }

/-- The fixed answers of the scripted collaborators. -/
structure Script where
  preRun : Except GoError Setup
  postRun : Option GoError
  resolve : Option GoError
  inputs : Option GoError
  extraArgs : List String
  extraEnv : List String
  find : Except GoError EnvHolder
  exec : Option GoError
  tty : Bool

/-- The scripted input strategy: it adds `extraArgs` to the argument vector
and `extraEnv` to the process environment, and returns `inputs`. -/
def scriptedRunner (s : Script) : InputRunner MemFS :=
  { Inputs := fun cmd _ _ fs =>
      ((s.inputs, { cmd with Args := cmd.Args ++ s.extraArgs, Env := cmd.Env ++ s.extraEnv }), fs) }

/-- A `RunManager` over the in-memory store whose collaborators answer as the
script says and leave the store alone. -/
def scriptedManager (s : Script) (homeDir : String) : RunManager MemFS :=
  { PostRun := fun _ _ fs => (s.postRun, fs)
    Resolve := fun _ fs =>
      (match s.resolve with
       | some err => .error err
       | none => .ok (scriptedRunner s), fs)
    PreRun := fun _ fs => (s.preRun, fs)
    file := memFile
    env := fun fs => (s.find, fs)
    homeDir := homeDir }

/-- Names used in closed instances. -/
def sampleNames : EnvNames :=
  { DockerExecutionEnv := "DOCKER_EXECUTION", PwdEnv := "CURRENT_PWD",
    CtxEnv := "CONTEXT", Env := "ENV", VerboseEnv := "VERBOSE_MODE" }

/-- A host over the in-memory store: the subprocess and the diagnostic sink
leave the store alone. -/
def scriptedHost (s : Script) (names : EnvNames) : Host MemFS :=
  { dockerCmd := "docker", names := names, isTerminal := fun _ => s.tty,
    run := fun _ fs => (s.exec, fs), promptError := fun _ fs => fs }

/-- The setup of the end-to-end scenario. -/
def sampleSetup : Setup :=
  { Pwd := "/work", Config := { Volumes := some ["/data:/data"] }, ContainerId := "run-42" }

/-- A script in which every collaborator succeeds and the strategy adds
nothing; standard output is not a terminal. -/
def quietScript (current : String) : Script :=
  { preRun := .ok sampleSetup, postRun := none, resolve := none, inputs := none,
    extraArgs := [], extraEnv := [], find := .ok { Current := current },
    exec := none, tty := false }

/-- A script in which `PreRun` fails. -/
def preRunFails : Script :=
  { quietScript "prod" with preRun := .error { msg := "pre-run failed" } }

/-- A script in which `Resolve` fails and so does the cleanup. -/
def resolveFails : Script :=
  { quietScript "prod" with
    resolve := some { msg := "unsupported input mode" },
    postRun := some { msg := "cleanup failed" } }

/-- A script in which the build and the execution succeed and the cleanup
fails. -/
def cleanupFails : Script :=
  { quietScript "prod" with postRun := some { msg := "cleanup failed" } }

/-- The invocation built in the end-to-end scenario with home directory
`/home/u`, context `prod` and the sample names. -/
def sampleCmd : Cmd :=
  { Path := "docker",
    Args := ["docker", "run", "--rm", "--env-file", ".env", "-v", "/work:/app",
      "-v", "/home/u/.rit:/root/.rit", "-v", "/data:/data", "--name", "run-42", "run-42"],
    Env := ["CURRENT_PWD=/app", "CONTEXT=prod", "VERBOSE_MODE=true",
      "DOCKER_EXECUTION=true", "ENV=prod"],
    Stdin := .osStdin, Stdout := .osStdout, Stderr := .osStderr }

/-- A world with the given store and an empty log. -/
def World.start {σ : Type} (st : σ) : World σ := { st := st, log := [] }

/-- The command as the strategy leaves it, handed to `setEnvs`. -/
def strategyCmd {σ : Type} (ru : RunManager σ) (host : Host σ) (setup : Setup)
    (inputType : TermInputType) (flags : FlagSet) (runner : InputRunner σ)
    (w : World σ) : Cmd :=
  (runner.Inputs (builtCmd ru host setup inputType w) setup flags
    (ru.Resolve inputType w.st).2).1.2

/-- The call the loop of `setEnvs` makes for one entry: `Append` when the file
exists, `Write` otherwise. -/
def fileCall {σ : Type} (ru : RunManager σ) (e : String) (st : σ) : Option GoError × σ :=
  if ru.file.Exists envFile st then ru.file.Append envFile (e ++ "\n") st
  else ru.file.Write envFile (e ++ "\n") st

/-- The event of that call. -/
def fileCallEvent {σ : Type} (ru : RunManager σ) (e : String) (st : σ) : Event :=
  if ru.file.Exists envFile st then .fileAppend envFile (e ++ "\n")
  else .fileWrite envFile (e ++ "\n")

/-- A store with no file on which two more calls succeed. -/
def twoCallsLeft : MemFS := { MemFS.empty with quota := some 2 }

/-! ## Reading an argument vector

The container runtime's command line is
`run --rm --env-file <file> [-it] (-v <mount>)* --name <id> <id>`: the options
`--env-file`, `-v` and `--name` take the next argument as their value. -/

/-- The options that take a value. -/
def valueOptions : List String := ["--env-file", "-v", "--name"]

/-- The values given to the option `flag`, in order, reading the vector from
the left and letting every value-taking option consume its value. -/
def optValues (flag : String) : List String → List String
  | [] => []
  | [_] => []
  | a :: b :: rest =>
    if a ∈ valueOptions then
      (if a = flag then b :: optValues flag rest else optValues flag rest)
    else optValues flag (b :: rest)
termination_by l => l.length

/-- The arguments that stand on their own, in order, reading the vector from
the left: a value-taking option and the value it consumes are passed over, and
the last argument of the vector is the positional target, not a flag.  The
interactive-allocation flag, when given, is one of them. -/
def standalone : List String → List String
  | [] => []
  | [_] => []
  | a :: b :: rest =>
    if a ∈ valueOptions then standalone rest
    else a :: standalone (b :: rest)
termination_by l => l.length

/-- The environment as the claim orders it: container flag, working
directory, the context under the generic and the context-specific name,
verbosity. -/
def specOrderEnvs (names : EnvNames) (pwd : String) (current : String)
    (verbose : Bool) : List String :=
  [envPattern names.DockerExecutionEnv "true", envPattern names.PwdEnv pwd,
   envPattern names.Env current, envPattern names.CtxEnv current,
   envPattern names.VerboseEnv (formatBool verbose)]

/-- The entries a store with the given quota lets the loop of `setEnvs`
write: all of them without a limit, the first `k` with `k` calls left. -/
def allowed (quota : Option Nat) (es : List String) : List String :=
  match quota with
  | none => es
  | some k => es.take k

/-- The method `setEnvs` on a new invocation (empty process environment) over
the in-memory store `fs`, the context being `current`. -/
def envChannel (names : EnvNames) (homeDir current : String) (verbose : Bool)
    (fs : MemFS) : (Option GoError × Cmd) × World MemFS :=
  setEnvs (scriptedManager (quietScript current) homeDir)
    (scriptedHost (quietScript current) names) (execCommand "docker" []) dockerPwd verbose
    (World.start fs)

/-- The end-to-end scenario: `runDocker` on the sample setup with flag input,
`verbose = true`, standard output not a terminal, a strategy that adds
nothing, and no environment file beforehand. -/
def endToEnd (names : EnvNames) (homeDir current : String) (flags : FlagSet) :
    Except GoError Cmd × World MemFS :=
  runDocker (scriptedManager (quietScript current) homeDir)
    (scriptedHost (quietScript current) names) sampleSetup TermInputType.Flag true flags
    (World.start MemFS.empty)

/-- The content of a file holding the given lines, each followed by a line
terminator. -/
def fileOf : List String → String
  | [] => ""
  | l :: ls => l ++ "\n" ++ fileOf ls

/-! ## Unfolding the methods case by case -/

/-- The loop `writeEnvs` on an empty environment does nothing. -/
theorem writeEnvs_nil {σ : Type} (ru : RunManager σ) (w : World σ) :
    writeEnvs ru [] w = (none, w) := rfl

/-- The loop `writeEnvs` stops at a failing entry. -/
theorem writeEnvs_cons_error {σ : Type} (ru : RunManager σ) (e : String) (es : List String)
    (w : World σ) (err : GoError) (h : (writeEnv ru e w).1 = some err) :
    writeEnvs ru (e :: es) w = (some err, (writeEnv ru e w).2) := by
  rw [writeEnvs]
  rcases hr : writeEnv ru e w with ⟨r, w1⟩
  rw [hr] at h
  simp only [] at h
  subst h
  rfl

/-- The loop `writeEnvs` goes on after an entry that was written. -/
theorem writeEnvs_cons_ok {σ : Type} (ru : RunManager σ) (e : String) (es : List String)
    (w : World σ) (h : (writeEnv ru e w).1 = none) :
    writeEnvs ru (e :: es) w = writeEnvs ru es (writeEnv ru e w).2 := by
  rw [writeEnvs]
  rcases hr : writeEnv ru e w with ⟨r, w1⟩
  rw [hr] at h
  simp only [] at h
  subst h
  rfl

/-- The method `setEnvs` when `env.Find` fails. -/
theorem setEnvs_find_error {σ : Type} (ru : RunManager σ) (host : Host σ) (cmd : Cmd)
    (pwd : String) (verbose : Bool) (w : World σ) (err : GoError)
    (h : (ru.env w.st).1 = .error err) :
    setEnvs ru host cmd pwd verbose w = ((some err, cmd), afterFind ru w) := by
  simp only [setEnvs, h, afterFind]

/-- The method `setEnvs` when `env.Find` succeeds. -/
theorem setEnvs_find_ok {σ : Type} (ru : RunManager σ) (host : Host σ) (cmd : Cmd)
    (pwd : String) (verbose : Bool) (w : World σ) (holder : EnvHolder)
    (h : (ru.env w.st).1 = .ok holder) :
    setEnvs ru host cmd pwd verbose w =
      (((writeEnvs ru (cmd.Env ++ requiredEnvs host.names pwd holder.Current verbose)
            (afterFind ru w)).1,
        { cmd with Env := cmd.Env ++ requiredEnvs host.names pwd holder.Current verbose }),
       (writeEnvs ru (cmd.Env ++ requiredEnvs host.names pwd holder.Current verbose)
            (afterFind ru w)).2) := by
  simp only [setEnvs, h, afterFind]

/-- The method `runDocker` when `Resolve` fails. -/
theorem runDocker_resolve_error {σ : Type} (ru : RunManager σ) (host : Host σ)
    (setup : Setup) (inputType : TermInputType) (verbose : Bool) (flags : FlagSet)
    (w : World σ) (err : GoError) (h : (ru.Resolve inputType w.st).1 = .error err) :
    runDocker ru host setup inputType verbose flags w =
      (.error err, afterResolve ru inputType w) := by
  simp only [runDocker, h, afterResolve]

/-- The method `runDocker` when `Inputs` fails. -/
theorem runDocker_inputs_error {σ : Type} (ru : RunManager σ) (host : Host σ)
    (setup : Setup) (inputType : TermInputType) (verbose : Bool) (flags : FlagSet)
    (w : World σ) (runner : InputRunner σ) (err : GoError)
    (h : (ru.Resolve inputType w.st).1 = .ok runner)
    (hi : (runner.Inputs (builtCmd ru host setup inputType w) setup flags
            (ru.Resolve inputType w.st).2).1.1 = some err) :
    runDocker ru host setup inputType verbose flags w =
      (.error err, afterInputs ru host setup inputType flags runner w) := by
  simp only [builtCmd] at hi
  simp only [runDocker, h, afterInputs, builtCmd]
  rcases hr : (runner.Inputs (baseCmd host.dockerCmd
      (dockerArgs ru.homeDir setup inputType (host.isTerminal w.st))) setup flags
      (ru.Resolve inputType w.st).2).1 with ⟨r, c⟩
  rw [hr] at hi
  simp only [] at hi
  subst hi
  rfl

/-- The method `runDocker` when `Resolve` and `Inputs` succeed: what is left
is `setEnvs` on the command the strategy returned. -/
theorem runDocker_inputs_ok {σ : Type} (ru : RunManager σ) (host : Host σ)
    (setup : Setup) (inputType : TermInputType) (verbose : Bool) (flags : FlagSet)
    (w : World σ) (runner : InputRunner σ)
    (h : (ru.Resolve inputType w.st).1 = .ok runner)
    (hi : (runner.Inputs (builtCmd ru host setup inputType w) setup flags
            (ru.Resolve inputType w.st).2).1.1 = none) :
    runDocker ru host setup inputType verbose flags w =
      (match (setEnvs ru host
          (runner.Inputs (builtCmd ru host setup inputType w) setup flags
            (ru.Resolve inputType w.st).2).1.2
          dockerPwd verbose (afterInputs ru host setup inputType flags runner w)).1.1 with
        | some err => .error err
        | none => .ok (setEnvs ru host
            (runner.Inputs (builtCmd ru host setup inputType w) setup flags
              (ru.Resolve inputType w.st).2).1.2
            dockerPwd verbose (afterInputs ru host setup inputType flags runner w)).1.2,
       (setEnvs ru host
          (runner.Inputs (builtCmd ru host setup inputType w) setup flags
            (ru.Resolve inputType w.st).2).1.2
          dockerPwd verbose (afterInputs ru host setup inputType flags runner w)).2) := by
  simp only [builtCmd] at hi
  simp only [runDocker, h, afterInputs, builtCmd]
  rcases hr : (runner.Inputs (baseCmd host.dockerCmd
      (dockerArgs ru.homeDir setup inputType (host.isTerminal w.st))) setup flags
      (ru.Resolve inputType w.st).2).1 with ⟨r, c⟩
  rw [hr] at hi
  simp only [] at hi
  subst hi
  simp only []
  rcases hs : setEnvs ru host c dockerPwd verbose
      { st := (runner.Inputs (baseCmd host.dockerCmd
            (dockerArgs ru.homeDir setup inputType (host.isTerminal w.st))) setup flags
            (ru.Resolve inputType w.st).2).2,
        log := w.log ++ [.resolve inputType] ++
          [.inputs (baseCmd host.dockerCmd
            (dockerArgs ru.homeDir setup inputType (host.isTerminal w.st))) setup] }
    with ⟨⟨_ | err, c2⟩, w2⟩ <;> rfl

/-! ## The log of the invocation build -/

/-- One round of the loop adds an `Exists` and then a `Write` or an `Append`
of the entry to the log. -/
theorem writeEnv_log {σ : Type} (ru : RunManager σ) (e : String) (w : World σ) :
    (writeEnv ru e w).2.log =
      w.log ++ [.fileExists envFile,
        if ru.file.Exists envFile w.st then .fileAppend envFile (e ++ "\n")
        else .fileWrite envFile (e ++ "\n")] := by
  unfold writeEnv World.emit
  by_cases h : ru.file.Exists envFile w.st = true <;> simp [h]

/-- One round of the loop leaves the state its `Write` or `Append` call
returned. -/
theorem writeEnv_st {σ : Type} (ru : RunManager σ) (e : String) (w : World σ) :
    (writeEnv ru e w).2.st =
      if ru.file.Exists envFile w.st then (ru.file.Append envFile (e ++ "\n") w.st).2
      else (ru.file.Write envFile (e ++ "\n") w.st).2 := by
  unfold writeEnv World.emit
  by_cases h : ru.file.Exists envFile w.st = true <;> simp [h]

/-- One round of the loop returns what its `Write` or `Append` call
returned. -/
theorem writeEnv_result {σ : Type} (ru : RunManager σ) (e : String) (w : World σ) :
    (writeEnv ru e w).1 =
      if ru.file.Exists envFile w.st then (ru.file.Append envFile (e ++ "\n") w.st).1
      else (ru.file.Write envFile (e ++ "\n") w.st).1 := by
  unfold writeEnv World.emit
  by_cases h : ru.file.Exists envFile w.st = true <;> simp [h]

/-- The loop only adds build events to the log. -/
theorem writeEnvs_log {σ : Type} (ru : RunManager σ) (es : List String) (w : World σ) :
    ∃ evs, (writeEnvs ru es w).2.log = w.log ++ evs ∧ ∀ ev ∈ evs, ev.isBuild = true := by
  induction es generalizing w with
  | nil => exact ⟨[], by simp [writeEnvs], by simp⟩
  | cons e es ih =>
    have hb1 : ∀ ev ∈ [Event.fileExists envFile,
        if ru.file.Exists envFile w.st then Event.fileAppend envFile (e ++ "\n")
        else Event.fileWrite envFile (e ++ "\n")], ev.isBuild = true := by
      intro ev hev
      by_cases h : ru.file.Exists envFile w.st = true
      · simp [h] at hev
        rcases hev with rfl | rfl <;> rfl
      · simp [h] at hev
        rcases hev with rfl | rfl <;> rfl
    rcases hr : (writeEnv ru e w).1 with _ | err
    · rw [writeEnvs_cons_ok ru e es w hr]
      obtain ⟨evs2, h2, hb2⟩ := ih (writeEnv ru e w).2
      refine ⟨[Event.fileExists envFile,
        if ru.file.Exists envFile w.st then Event.fileAppend envFile (e ++ "\n")
        else Event.fileWrite envFile (e ++ "\n")] ++ evs2, ?_, ?_⟩
      · rw [h2, writeEnv_log, List.append_assoc]
      · intro ev hev
        rcases List.mem_append.mp hev with hm | hm
        · exact hb1 ev hm
        · exact hb2 ev hm
    · rw [writeEnvs_cons_error ru e es w err hr]
      exact ⟨_, writeEnv_log ru e w, hb1⟩

/-- The method `setEnvs` only adds build events to the log. -/
theorem setEnvs_log {σ : Type} (ru : RunManager σ) (host : Host σ) (cmd : Cmd)
    (pwd : String) (verbose : Bool) (w : World σ) :
    ∃ evs, (setEnvs ru host cmd pwd verbose w).2.log = w.log ++ evs ∧
      ∀ ev ∈ evs, ev.isBuild = true := by
  rcases hr : (ru.env w.st).1 with err | holder
  · rw [setEnvs_find_error ru host cmd pwd verbose w err hr]
    refine ⟨[.envFind], rfl, ?_⟩
    intro ev hev
    simp at hev
    subst hev
    rfl
  · rw [setEnvs_find_ok ru host cmd pwd verbose w holder hr]
    obtain ⟨evs, h, hb⟩ := writeEnvs_log ru
      (cmd.Env ++ requiredEnvs host.names pwd holder.Current verbose) (afterFind ru w)
    refine ⟨.envFind :: evs, ?_, ?_⟩
    · rw [h]
      simp [afterFind]
    · intro ev hev
      rcases List.mem_cons.mp hev with rfl | hm
      · rfl
      · exact hb ev hm

/-- The method `runDocker` only adds build events to the log: it never calls
`PostRun` and never runs the subprocess. -/
theorem runDocker_log {σ : Type} (ru : RunManager σ) (host : Host σ) (setup : Setup)
    (inputType : TermInputType) (verbose : Bool) (flags : FlagSet) (w : World σ) :
    ∃ evs, (runDocker ru host setup inputType verbose flags w).2.log = w.log ++ evs ∧
      ∀ ev ∈ evs, ev.isBuild = true := by
  rcases hr : (ru.Resolve inputType w.st).1 with err | runner
  · rw [runDocker_resolve_error ru host setup inputType verbose flags w err hr]
    refine ⟨[.resolve inputType], rfl, ?_⟩
    intro ev hev
    simp at hev
    subst hev
    rfl
  · rcases hi : (runner.Inputs (builtCmd ru host setup inputType w) setup flags
        (ru.Resolve inputType w.st).2).1.1 with _ | err
    · rw [runDocker_inputs_ok ru host setup inputType verbose flags w runner hr hi]
      obtain ⟨evs, h, hb⟩ := setEnvs_log ru host
        (runner.Inputs (builtCmd ru host setup inputType w) setup flags
          (ru.Resolve inputType w.st).2).1.2
        dockerPwd verbose (afterInputs ru host setup inputType flags runner w)
      refine ⟨.resolve inputType :: .inputs (builtCmd ru host setup inputType w) setup :: evs,
        ?_, ?_⟩
      · rw [h]
        simp [afterInputs]
      · intro ev hev
        rcases List.mem_cons.mp hev with rfl | hm
        · rfl
        · rcases List.mem_cons.mp hm with rfl | hm2
          · rfl
          · exact hb ev hm2
    · rw [runDocker_inputs_error ru host setup inputType verbose flags w runner err hr hi]
      refine ⟨[.resolve inputType, .inputs (builtCmd ru host setup inputType w) setup],
        by simp [afterInputs], ?_⟩
      intro ev hev
      simp at hev
      rcases hev with rfl | rfl <;> rfl

/-- A build event is neither a `PostRun` call nor a subprocess execution. -/
theorem filter_build_events (evs : List Event) (h : ∀ ev ∈ evs, ev.isBuild = true) :
    evs.filter Event.isPostRun = [] ∧ evs.filter Event.isCmdRun = [] := by
  constructor
  all_goals
    rw [List.filter_eq_nil_iff]
    intro ev hev
    have hb := h ev hev
    cases ev <;> simp_all [Event.isBuild, Event.isPostRun, Event.isCmdRun]

/-- The log after the deferred function: one `PostRun(setup, true)` call,
followed by a diagnostic when that call failed. -/
theorem deferred_log {σ : Type} (ru : RunManager σ) (host : Host σ) (setup : Setup)
    (w : World σ) :
    (deferred ru host setup w).log =
      w.log ++ [.postRun setup true] ++
        (match (ru.PostRun setup true w.st).1 with
         | some err => [.promptError err.msg]
         | none => []) := by
  unfold deferred
  rcases hr : (ru.PostRun setup true w.st).1 with _ | err <;> simp [hr]

/-! ## The lifecycle: `Run` -/

/-- The method `Run` when `PreRun` fails. -/
theorem Run_preRun_error {σ : Type} (ru : RunManager σ) (host : Host σ) (d : Definition)
    (inputType : TermInputType) (verbose : Bool) (flags : FlagSet) (w : World σ)
    (err : GoError) (h : (ru.PreRun d w.st).1 = .error err) :
    Run ru host d inputType verbose flags w = (some err, afterPreRun ru d w) := by
  simp only [Run, h, afterPreRun]

/-- The method `Run` when `PreRun` succeeds: the body, then the deferred
function. -/
theorem Run_preRun_ok {σ : Type} (ru : RunManager σ) (host : Host σ) (d : Definition)
    (inputType : TermInputType) (verbose : Bool) (flags : FlagSet) (w : World σ)
    (setup : Setup) (h : (ru.PreRun d w.st).1 = .ok setup) :
    Run ru host d inputType verbose flags w =
      ((runBody ru host setup inputType verbose flags (afterPreRun ru d w)).1,
       deferred ru host setup
         (runBody ru host setup inputType verbose flags (afterPreRun ru d w)).2) := by
  simp only [Run, h, afterPreRun]

/-- The body of `Run` when the build fails. -/
theorem runBody_build_error {σ : Type} (ru : RunManager σ) (host : Host σ) (setup : Setup)
    (inputType : TermInputType) (verbose : Bool) (flags : FlagSet) (w : World σ)
    (err : GoError) (h : (runDocker ru host setup inputType verbose flags w).1 = .error err) :
    runBody ru host setup inputType verbose flags w =
      (some err, (runDocker ru host setup inputType verbose flags w).2) := by
  unfold runBody
  rcases hr : runDocker ru host setup inputType verbose flags w with ⟨r, w1⟩
  rw [hr] at h
  simp only [] at h
  subst h
  rfl

/-- The body of `Run` when the build succeeds: the subprocess is run. -/
theorem runBody_build_ok {σ : Type} (ru : RunManager σ) (host : Host σ) (setup : Setup)
    (inputType : TermInputType) (verbose : Bool) (flags : FlagSet) (w : World σ)
    (cmd : Cmd) (h : (runDocker ru host setup inputType verbose flags w).1 = .ok cmd) :
    runBody ru host setup inputType verbose flags w =
      ((host.run cmd (runDocker ru host setup inputType verbose flags w).2.st).1,
       { st := (host.run cmd (runDocker ru host setup inputType verbose flags w).2.st).2,
         log := (runDocker ru host setup inputType verbose flags w).2.log ++ [.cmdRun cmd] }) := by
  unfold runBody
  rcases hr : runDocker ru host setup inputType verbose flags w with ⟨r, w1⟩
  rw [hr] at h
  simp only [] at h
  subst h
  rfl

/-- C1: when `PreRun` returns an error, `Run` returns that same error, and the
only call it has made is that `PreRun`: the log grows by the `PreRun` event
alone, so `PostRun` is called zero times and nothing of the build (`Resolve`,
`Inputs`, `env.Find`, file `Exists`/`Write`/`Append`) or of the execution is
called; the state is the one `PreRun` left. -/
theorem Run_preRun_failure {σ : Type} (ru : RunManager σ) (host : Host σ) (d : Definition)
    (inputType : TermInputType) (verbose : Bool) (flags : FlagSet) (w : World σ)
    (err : GoError) (h : (ru.PreRun d w.st).1 = .error err) :
    (Run ru host d inputType verbose flags w).1 = some err ∧
    (Run ru host d inputType verbose flags w).2.log = w.log ++ [.preRun d] ∧
    (Run ru host d inputType verbose flags w).2.st = (ru.PreRun d w.st).2 ∧
    (Run ru host d inputType verbose flags w).2.log.filter Event.isPostRun =
      w.log.filter Event.isPostRun ∧
    (Run ru host d inputType verbose flags w).2.log.filter Event.isBuild =
      w.log.filter Event.isBuild ∧
    (Run ru host d inputType verbose flags w).2.log.filter Event.isCmdRun =
      w.log.filter Event.isCmdRun := by
  rw [Run_preRun_error ru host d inputType verbose flags w err h]
  simp [afterPreRun, Event.isPostRun, Event.isBuild, Event.isCmdRun]

/-- C2: when `PreRun` succeeds with a setup and `runDocker` fails, `Run`
returns the build error; after the build the log grows by exactly one
`PostRun(setup, true)` call, followed by a diagnostic when that call failed;
over the whole run `PostRun` is called exactly once, with `(setup, true)`, and
the subprocess is never run.  Nothing is assumed about the result of
`PostRun`. -/
theorem Run_build_failure {σ : Type} (ru : RunManager σ) (host : Host σ) (d : Definition)
    (inputType : TermInputType) (verbose : Bool) (flags : FlagSet) (w : World σ)
    (setup : Setup) (err : GoError)
    (hpre : (ru.PreRun d w.st).1 = .ok setup)
    (hbuild : (runDocker ru host setup inputType verbose flags (afterPreRun ru d w)).1 =
      .error err) :
    (Run ru host d inputType verbose flags w).1 = some err ∧
    (Run ru host d inputType verbose flags w).2.log =
      (runDocker ru host setup inputType verbose flags (afterPreRun ru d w)).2.log ++
        [.postRun setup true] ++
        (match (ru.PostRun setup true
            (runDocker ru host setup inputType verbose flags (afterPreRun ru d w)).2.st).1 with
         | some perr => [.promptError perr.msg]
         | none => []) ∧
    (Run ru host d inputType verbose flags w).2.log.filter Event.isPostRun =
      w.log.filter Event.isPostRun ++ [.postRun setup true] ∧
    (Run ru host d inputType verbose flags w).2.log.filter Event.isCmdRun =
      w.log.filter Event.isCmdRun := by
  rw [Run_preRun_ok ru host d inputType verbose flags w setup hpre,
    runBody_build_error ru host setup inputType verbose flags _ err hbuild]
  obtain ⟨evs, hlog, hb⟩ :=
    runDocker_log ru host setup inputType verbose flags (afterPreRun ru d w)
  obtain ⟨hp, hc⟩ := filter_build_events evs hb
  refine ⟨rfl, deferred_log ru host setup _, ?_, ?_⟩
  · rw [deferred_log, hlog]
    rcases (ru.PostRun setup true
      (runDocker ru host setup inputType verbose flags (afterPreRun ru d w)).2.st).1
      with _ | perr <;>
      simp [afterPreRun, List.filter_append, hp, Event.isPostRun]
  · rw [deferred_log, hlog]
    rcases (ru.PostRun setup true
      (runDocker ru host setup inputType verbose flags (afterPreRun ru d w)).2.st).1
      with _ | perr <;>
      simp [afterPreRun, List.filter_append, hc, Event.isCmdRun]

/-- C3: when `PreRun` and `runDocker` succeed, `Run` returns exactly what the
execution of the built command returned (`none` on success, the execution
error otherwise); after the build the log grows by the execution, then one
`PostRun(setup, true)` call, then a diagnostic with the text of the cleanup
error when that call failed; over the whole run the command is run once and
`PostRun` is called exactly once.  The result of `PostRun` does not occur in
the returned value. -/
theorem Run_executes {σ : Type} (ru : RunManager σ) (host : Host σ) (d : Definition)
    (inputType : TermInputType) (verbose : Bool) (flags : FlagSet) (w : World σ)
    (setup : Setup) (cmd : Cmd)
    (hpre : (ru.PreRun d w.st).1 = .ok setup)
    (hbuild : (runDocker ru host setup inputType verbose flags (afterPreRun ru d w)).1 =
      .ok cmd) :
    (Run ru host d inputType verbose flags w).1 =
      (host.run cmd
        (runDocker ru host setup inputType verbose flags (afterPreRun ru d w)).2.st).1 ∧
    (Run ru host d inputType verbose flags w).2.log =
      (runDocker ru host setup inputType verbose flags (afterPreRun ru d w)).2.log ++
        [.cmdRun cmd, .postRun setup true] ++
        (match (ru.PostRun setup true (host.run cmd
            (runDocker ru host setup inputType verbose flags (afterPreRun ru d w)).2.st).2).1 with
         | some perr => [.promptError perr.msg]
         | none => []) ∧
    (Run ru host d inputType verbose flags w).2.log.filter Event.isPostRun =
      w.log.filter Event.isPostRun ++ [.postRun setup true] ∧
    (Run ru host d inputType verbose flags w).2.log.filter Event.isCmdRun =
      w.log.filter Event.isCmdRun ++ [.cmdRun cmd] := by
  rw [Run_preRun_ok ru host d inputType verbose flags w setup hpre,
    runBody_build_ok ru host setup inputType verbose flags _ cmd hbuild]
  obtain ⟨evs, hlog, hb⟩ :=
    runDocker_log ru host setup inputType verbose flags (afterPreRun ru d w)
  obtain ⟨hp, hc⟩ := filter_build_events evs hb
  refine ⟨rfl, ?_, ?_, ?_⟩
  · rw [deferred_log]
    simp
  · rw [deferred_log]
    simp only [hlog]
    rcases (ru.PostRun setup true (host.run cmd
      (runDocker ru host setup inputType verbose flags (afterPreRun ru d w)).2.st).2).1
      with _ | perr <;>
      simp [afterPreRun, List.filter_append, hp, Event.isPostRun]
  · rw [deferred_log]
    simp only [hlog]
    rcases (ru.PostRun setup true (host.run cmd
      (runDocker ru host setup inputType verbose flags (afterPreRun ru d w)).2.st).2).1
      with _ | perr <;>
      simp [afterPreRun, List.filter_append, hc, Event.isCmdRun]

/-! ## The argument vector -/

/-- The loop over the mounts (source lines 118-120) appends one `-v` pair per
mount, in order. -/
theorem foldl_mounts (vs : List String) (args : List String) :
    vs.foldl (fun acc volume => acc ++ ["-v", volume]) args =
      args ++ vs.flatMap (fun m => ["-v", m]) := by
  induction vs generalizing args with
  | nil => simp
  | cons v vs ih => simp [List.foldl_cons, ih, List.flatMap_cons]

/-- The mount list is the two mandatory mounts followed by the extra mounts of
the setup, a nil slice counting as empty. -/
theorem volumes_eq (homeDir : String) (setup : Setup) :
    volumes homeDir setup =
      [setup.Pwd ++ ":/app", homeDir ++ "/.rit:/root/.rit"] ++
        setup.Config.Volumes.getD [] := by
  unfold volumes
  rcases h : setup.Config.Volumes with _ | extra
  · simp
  · cases extra <;> simp

/-- The argument vector in closed form. -/
theorem dockerArgs_eq (homeDir : String) (setup : Setup) (inputType : TermInputType)
    (tty : Bool) :
    dockerArgs homeDir setup inputType tty =
      ["run", "--rm", "--env-file", ".env"] ++
        (if tty && inputType != TermInputType.Stdin then ["-it"] else []) ++
        ([setup.Pwd ++ ":/app", homeDir ++ "/.rit:/root/.rit"] ++
          setup.Config.Volumes.getD []).flatMap (fun m => ["-v", m]) ++
        ["--name", setup.ContainerId, setup.ContainerId] := by
  unfold dockerArgs
  simp only [foldl_mounts, volumes_eq, envFile]
  by_cases h : (tty && inputType != TermInputType.Stdin) = true <;> simp [h]

/-- Reading the mounts section: every `-v` takes the argument after it. -/
theorem optValues_mounts (ms : List String) (rest : List String) :
    optValues "-v" (ms.flatMap (fun m => ["-v", m]) ++ rest) = ms ++ optValues "-v" rest := by
  induction ms with
  | nil => simp
  | cons m ms ih =>
    simp only [List.flatMap_cons, List.cons_append, List.nil_append]
    rw [optValues]
    simp [valueOptions, ih]

/-- A `--name` value is not a mount: reading the mounts section for `--name`
yields what the rest yields. -/
theorem optValues_name_mounts (ms : List String) (rest : List String) :
    optValues "--name" (ms.flatMap (fun m => ["-v", m]) ++ rest) =
      optValues "--name" rest := by
  induction ms with
  | nil => simp
  | cons m ms ih =>
    simp only [List.flatMap_cons, List.cons_append, List.nil_append]
    rw [optValues]
    simp [valueOptions, ih]

/-- A string of five characters or more after some text is not `-it`. -/
theorem append_ne_it (s t : String) (h : 3 < t.length) : s ++ t ≠ "-it" := by
  intro heq
  have hl := congrArg String.length heq
  rw [String.length_append] at hl
  have h3 : "-it".length = 3 := by decide
  omega

/-- An argument that is not a value-taking option is passed over. -/
theorem optValues_skip (flag a : String) (l : List String) (h : a ∉ valueOptions) :
    optValues flag (a :: l) = optValues flag l := by
  cases l with
  | nil => simp [optValues]
  | cons b rest => rw [optValues, if_neg h]

/-- A value-taking option other than the one looked for consumes its value. -/
theorem optValues_other (flag a b : String) (l : List String) (h : a ∈ valueOptions)
    (hne : a ≠ flag) : optValues flag (a :: b :: l) = optValues flag l := by
  rw [optValues, if_pos h, if_neg hne]

/-- The option looked for yields its value. -/
theorem optValues_hit (flag b : String) (l : List String) (h : flag ∈ valueOptions) :
    optValues flag (flag :: b :: l) = b :: optValues flag l := by
  rw [optValues, if_pos h, if_pos rfl]

/-- Reading for `-v` a vector of the runtime's shape. -/
theorem optValues_v_shape (it : Bool) (ms : List String) (a b : String) :
    optValues "-v" (["run", "--rm", "--env-file", ".env"] ++
      (if it then ["-it"] else []) ++ ms.flatMap (fun m => ["-v", m]) ++ ["--name", a, b]) =
      ms := by
  have htail : optValues "-v" ["--name", a, b] = [] := by
    rw [optValues_other "-v" "--name" a [b] (by decide) (by decide)]
    simp [optValues]
  have hms := optValues_mounts ms ["--name", a, b]
  rw [htail, List.append_nil] at hms
  cases it
  · simp only [List.cons_append, List.nil_append, List.append_assoc, Bool.false_eq_true,
      if_false]
    rw [optValues_skip "-v" "run" _ (by decide), optValues_skip "-v" "--rm" _ (by decide),
      optValues_other "-v" "--env-file" ".env" _ (by decide) (by decide), hms]
  · simp only [List.cons_append, List.nil_append, List.append_assoc, if_true]
    rw [optValues_skip "-v" "run" _ (by decide), optValues_skip "-v" "--rm" _ (by decide),
      optValues_other "-v" "--env-file" ".env" _ (by decide) (by decide),
      optValues_skip "-v" "-it" _ (by decide), hms]

/-- Reading for `--name` a vector of the runtime's shape. -/
theorem optValues_name_shape (it : Bool) (ms : List String) (a b : String) :
    optValues "--name" (["run", "--rm", "--env-file", ".env"] ++
      (if it then ["-it"] else []) ++ ms.flatMap (fun m => ["-v", m]) ++ ["--name", a, b]) =
      [a] := by
  have htail : optValues "--name" ["--name", a, b] = [a] := by
    rw [optValues_hit "--name" a [b] (by decide)]
    simp [optValues]
  have hms := optValues_name_mounts ms ["--name", a, b]
  rw [htail] at hms
  cases it
  · simp only [List.cons_append, List.nil_append, List.append_assoc, Bool.false_eq_true,
      if_false]
    rw [optValues_skip "--name" "run" _ (by decide),
      optValues_skip "--name" "--rm" _ (by decide),
      optValues_other "--name" "--env-file" ".env" _ (by decide) (by decide), hms]
  · simp only [List.cons_append, List.nil_append, List.append_assoc, if_true]
    rw [optValues_skip "--name" "run" _ (by decide),
      optValues_skip "--name" "--rm" _ (by decide),
      optValues_other "--name" "--env-file" ".env" _ (by decide) (by decide),
      optValues_skip "--name" "-it" _ (by decide), hms]

/-- C7: the argument vector is the fixed head, the optional `-it`, then one
`-v` immediately followed by its mount for each mount of
`[Pwd:/app, homeDir/.rit:/root/.rit] ++ Config.Volumes` in that order (nothing
dropped, merged or reordered), then `--name id id`; read from the left, the
values of the `-v` options are exactly that list; and a nil or an empty
`Config.Volumes` gives exactly the two mandatory mounts. -/
theorem mounts_in_order (homeDir : String) (setup : Setup) (inputType : TermInputType)
    (tty : Bool) (pwd id : String) :
    dockerArgs homeDir setup inputType tty =
      ["run", "--rm", "--env-file", ".env"] ++
        (if tty && inputType != TermInputType.Stdin then ["-it"] else []) ++
        ([setup.Pwd ++ ":/app", homeDir ++ "/.rit:/root/.rit"] ++
          setup.Config.Volumes.getD []).flatMap (fun m => ["-v", m]) ++
        ["--name", setup.ContainerId, setup.ContainerId] ∧
    optValues "-v" (dockerArgs homeDir setup inputType tty) =
      [setup.Pwd ++ ":/app", homeDir ++ "/.rit:/root/.rit"] ++
        setup.Config.Volumes.getD [] ∧
    optValues "-v" (dockerArgs homeDir
        { Pwd := pwd, Config := { Volumes := none }, ContainerId := id } inputType tty) =
      [pwd ++ ":/app", homeDir ++ "/.rit:/root/.rit"] ∧
    optValues "-v" (dockerArgs homeDir
        { Pwd := pwd, Config := { Volumes := some [] }, ContainerId := id } inputType tty) =
      [pwd ++ ":/app", homeDir ++ "/.rit:/root/.rit"] := by
  refine ⟨dockerArgs_eq homeDir setup inputType tty, ?_, ?_, ?_⟩
  · rw [dockerArgs_eq, optValues_v_shape]
  · rw [dockerArgs_eq, optValues_v_shape]
    rfl
  · rw [dockerArgs_eq, optValues_v_shape]
    rfl

/-- The mounts section holds `-it` only when a mount is `-it`. -/
theorem it_mem_mounts (ms : List String) :
    "-it" ∈ ms.flatMap (fun m => ["-v", m]) ↔ "-it" ∈ ms := by
  simp only [List.mem_flatMap, List.mem_cons, List.mem_singleton, List.not_mem_nil, or_false]
  constructor
  · rintro ⟨m, hm, h | h⟩
    · exact absurd h (by decide)
    · exact h ▸ hm
  · intro h
    exact ⟨"-it", h, Or.inr rfl⟩

/-- The text `-it` as a bare token of the vector, whatever its role: for a
setup none of whose extra mounts is the text `-it` and whose `ContainerId` is
not `-it`, the vector holds that token if and only if standard output is a
terminal and the input type is not Stdin, and then exactly once. -/
theorem it_token_mem (homeDir : String) (setup : Setup) (inputType : TermInputType)
    (tty : Bool) (hv : "-it" ∉ setup.Config.Volumes.getD [])
    (hid : setup.ContainerId ≠ "-it") :
    ("-it" ∈ dockerArgs homeDir setup inputType tty ↔
      (tty = true ∧ inputType ≠ TermInputType.Stdin)) ∧
    (dockerArgs homeDir setup inputType tty).count "-it" =
      (if tty = true ∧ inputType ≠ TermInputType.Stdin then 1 else 0) := by
  have hpwd : setup.Pwd ++ ":/app" ≠ "-it" := append_ne_it _ _ (by decide)
  have hhome : homeDir ++ "/.rit:/root/.rit" ≠ "-it" := append_ne_it _ _ (by decide)
  have hms : "-it" ∉ ([setup.Pwd ++ ":/app", homeDir ++ "/.rit:/root/.rit"] ++
      setup.Config.Volumes.getD []).flatMap (fun m => ["-v", m]) := by
    rw [it_mem_mounts]
    simp only [List.cons_append, List.nil_append, List.mem_cons, not_or]
    exact ⟨fun h => hpwd h.symm, fun h => hhome h.symm, hv⟩
  have hhead : "-it" ∉ ["run", "--rm", "--env-file", ".env"] := by decide
  have htail : "-it" ∉ ["--name", setup.ContainerId, setup.ContainerId] := by
    simp only [List.mem_cons, List.mem_singleton, List.not_mem_nil, or_false, not_or]
    exact ⟨by decide, fun h => hid h.symm, fun h => hid h.symm⟩
  rw [dockerArgs_eq]
  by_cases h : tty = true ∧ inputType ≠ TermInputType.Stdin
  · have hb : (tty && inputType != TermInputType.Stdin) = true := by
      simp [h.1, h.2]
    rw [hb]
    simp only [if_true, if_pos h]
    refine ⟨?_, ?_⟩
    · simp [h]
    · rw [List.count_append, List.count_append, List.count_append,
        List.count_eq_zero_of_not_mem hhead, List.count_eq_zero_of_not_mem hms,
        List.count_eq_zero_of_not_mem htail]
      simp
  · have hb : (tty && inputType != TermInputType.Stdin) = false := by
      cases tty <;> simp_all
    rw [hb]
    simp only [if_neg h, Bool.false_eq_true, if_false, List.append_nil]
    refine ⟨?_, ?_⟩
    · constructor
      · intro hm
        rcases List.mem_append.mp hm with hm | hm
        · rcases List.mem_append.mp hm with hm | hm
          · exact absurd hm hhead
          · exact absurd hm hms
        · exact absurd hm htail
      · intro h2
        exact absurd h2 h
    · rw [List.count_append, List.count_append,
        List.count_eq_zero_of_not_mem hhead, List.count_eq_zero_of_not_mem hms,
        List.count_eq_zero_of_not_mem htail]

/-- A standalone argument followed by more arguments is kept. -/
theorem standalone_keep (a b : String) (l : List String) (h : a ∉ valueOptions) :
    standalone (a :: b :: l) = a :: standalone (b :: l) := by
  rw [standalone, if_neg h]

/-- A value-taking option and its value are passed over. -/
theorem standalone_pass (a b : String) (l : List String) (h : a ∈ valueOptions) :
    standalone (a :: b :: l) = standalone l := by
  rw [standalone, if_pos h]

/-- The mounts section holds no standalone argument. -/
theorem standalone_mounts (ms : List String) (rest : List String) :
    standalone (ms.flatMap (fun m => ["-v", m]) ++ rest) = standalone rest := by
  induction ms with
  | nil => simp
  | cons m ms ih =>
    simp only [List.flatMap_cons, List.cons_append, List.nil_append]
    rw [standalone_pass "-v" m _ (by decide), ih]

/-- The standalone arguments of a vector of the runtime's shape. -/
theorem standalone_shape (it : Bool) (ms : List String) (a b : String) :
    standalone (["run", "--rm", "--env-file", ".env"] ++
      (if it then ["-it"] else []) ++ ms.flatMap (fun m => ["-v", m]) ++ ["--name", a, b]) =
      ["run", "--rm"] ++ (if it then ["-it"] else []) := by
  have htail : standalone ["--name", a, b] = [] := by
    rw [standalone_pass "--name" a [b] (by decide)]
    simp [standalone]
  have hms := standalone_mounts ms ["--name", a, b]
  rw [htail] at hms
  cases it
  · simp only [List.cons_append, List.nil_append, List.append_assoc, Bool.false_eq_true,
      if_false, List.append_nil]
    rw [standalone_keep "run" _ _ (by decide), standalone_keep "--rm" _ _ (by decide),
      standalone_pass "--env-file" ".env" _ (by decide), hms]
  · simp only [List.cons_append, List.nil_append, List.append_assoc, if_true]
    cases ms with
    | nil =>
      simp only [List.flatMap_nil, List.nil_append]
      rw [standalone_keep "run" _ _ (by decide), standalone_keep "--rm" _ _ (by decide),
        standalone_pass "--env-file" ".env" _ (by decide),
        standalone_keep "-it" _ _ (by decide), htail]
    | cons m ms =>
      have hms2 := standalone_mounts (m :: ms) ["--name", a, b]
      rw [htail] at hms2
      simp only [List.flatMap_cons, List.cons_append, List.nil_append] at hms2 ⊢
      rw [standalone_keep "run" _ _ (by decide), standalone_keep "--rm" _ _ (by decide),
        standalone_pass "--env-file" ".env" _ (by decide),
        standalone_keep "-it" _ _ (by decide), hms2]

/-- C6: for every setup, home directory and input type, with terminal
detection as the boolean `tty`: the argument vector `runDocker` builds is the
fixed head, then `-it` exactly when `tty` holds and the input type is not
Stdin, then the mounts, then `--name id id`; its standalone arguments are
`run`, `--rm` and, under that same condition only, `-it`; so the flag `-it` is
in the vector if and only if standard output is a terminal and the input type
is not Stdin, exactly once when present, never with Stdin and never without a
terminal; and the argument right after the env-file name is `-it` under that
condition and only then. -/
theorem interactive_flag (homeDir : String) (setup : Setup) (inputType : TermInputType)
    (tty : Bool) :
    dockerArgs homeDir setup inputType tty =
      ["run", "--rm", "--env-file", ".env"] ++
        (if tty && inputType != TermInputType.Stdin then ["-it"] else []) ++
        ([setup.Pwd ++ ":/app", homeDir ++ "/.rit:/root/.rit"] ++
          setup.Config.Volumes.getD []).flatMap (fun m => ["-v", m]) ++
        ["--name", setup.ContainerId, setup.ContainerId] ∧
    standalone (dockerArgs homeDir setup inputType tty) =
      ["run", "--rm"] ++
        (if tty && inputType != TermInputType.Stdin then ["-it"] else []) ∧
    ("-it" ∈ standalone (dockerArgs homeDir setup inputType tty) ↔
      (tty = true ∧ inputType ≠ TermInputType.Stdin)) ∧
    (standalone (dockerArgs homeDir setup inputType tty)).count "-it" =
      (if tty = true ∧ inputType ≠ TermInputType.Stdin then 1 else 0) ∧
    "-it" ∉ standalone (dockerArgs homeDir setup TermInputType.Stdin tty) ∧
    "-it" ∉ standalone (dockerArgs homeDir setup inputType false) ∧
    ((dockerArgs homeDir setup inputType tty)[4]? = some "-it" ↔
      (tty = true ∧ inputType ≠ TermInputType.Stdin)) := by
  have hshape : ∀ (it : TermInputType) (t : Bool),
      standalone (dockerArgs homeDir setup it t) =
        ["run", "--rm"] ++ (if t && it != TermInputType.Stdin then ["-it"] else []) := by
    intro it t
    rw [dockerArgs_eq, standalone_shape]
  have hcond : (tty && inputType != TermInputType.Stdin) = true ↔
      (tty = true ∧ inputType ≠ TermInputType.Stdin) := by
    cases tty <;> simp
  refine ⟨dockerArgs_eq homeDir setup inputType tty, hshape inputType tty, ?_, ?_, ?_, ?_, ?_⟩
  · rw [hshape]
    by_cases h : (tty && inputType != TermInputType.Stdin) = true
    · simp only [h, if_true]
      exact ⟨fun _ => hcond.mp h, fun _ => by decide⟩
    · simp only [h, if_false]
      exact ⟨fun hm => absurd hm (by decide), fun hc => absurd (hcond.mpr hc) h⟩
  · rw [hshape]
    by_cases h : (tty && inputType != TermInputType.Stdin) = true
    · rw [if_pos h, if_pos (hcond.mp h)]
      decide
    · rw [if_neg h, if_neg (fun hc => h (hcond.mpr hc))]
      decide
  · rw [hshape]
    have h : (tty && TermInputType.Stdin != TermInputType.Stdin) = false := by
      cases tty <;> rfl
    rw [h]
    decide
  · rw [hshape]
    have h : (false && inputType != TermInputType.Stdin) = false := rfl
    rw [h]
    decide
  · rw [dockerArgs_eq]
    by_cases h : (tty && inputType != TermInputType.Stdin) = true
    · simp only [h, if_true]
      exact ⟨fun _ => hcond.mp h, fun _ => rfl⟩
    · simp only [h, if_false]
      refine ⟨fun hm => ?_, fun hc => absurd (hcond.mpr hc) h⟩
      simp at hm

/-! ## The returned invocation -/

/-- The method `setEnvs` changes no field of the command but `Env`. -/
theorem setEnvs_args {σ : Type} (ru : RunManager σ) (host : Host σ) (cmd : Cmd)
    (pwd : String) (verbose : Bool) (w : World σ) :
    (setEnvs ru host cmd pwd verbose w).1.2.Args = cmd.Args := by
  rcases hr : (ru.env w.st).1 with err | holder
  · rw [setEnvs_find_error ru host cmd pwd verbose w err hr]
  · rw [setEnvs_find_ok ru host cmd pwd verbose w holder hr]

/-- The command `runDocker` returns is the one the strategy left, after
`setEnvs`. -/
theorem runDocker_ok_cmd {σ : Type} (ru : RunManager σ) (host : Host σ) (setup : Setup)
    (inputType : TermInputType) (verbose : Bool) (flags : FlagSet) (w : World σ)
    (runner : InputRunner σ) (cmd : Cmd)
    (hres : (ru.Resolve inputType w.st).1 = .ok runner)
    (hok : (runDocker ru host setup inputType verbose flags w).1 = .ok cmd) :
    cmd = (setEnvs ru host
      (runner.Inputs (builtCmd ru host setup inputType w) setup flags
        (ru.Resolve inputType w.st).2).1.2
      dockerPwd verbose (afterInputs ru host setup inputType flags runner w)).1.2 := by
  rcases hi : (runner.Inputs (builtCmd ru host setup inputType w) setup flags
      (ru.Resolve inputType w.st).2).1.1 with _ | err
  · rw [runDocker_inputs_ok ru host setup inputType verbose flags w runner hres hi] at hok
    simp only [] at hok
    rcases hs : (setEnvs ru host
      (runner.Inputs (builtCmd ru host setup inputType w) setup flags
        (ru.Resolve inputType w.st).2).1.2
      dockerPwd verbose (afterInputs ru host setup inputType flags runner w)).1.1 with _ | err
    · rw [hs] at hok
      simp only [Except.ok.injEq] at hok
      exact hok.symm
    · rw [hs] at hok
      simp at hok
  · rw [runDocker_inputs_error ru host setup inputType verbose flags w runner err hres hi]
      at hok
    simp at hok

/-- C8, counterexample: a strategy that adds one argument to the command it is
given; `runDocker` succeeds and the final argument of the invocation it
returns is the added one, not the `ContainerId`. -/
theorem name_and_target_counterexample :
    ((runDocker
        (scriptedManager { quietScript "prod" with extraArgs := ["--debug"] } "/home/u")
        (scriptedHost { quietScript "prod" with extraArgs := ["--debug"] } sampleNames)
        sampleSetup TermInputType.Flag true { values := [] }
        (World.start MemFS.empty)).1.toOption.map Cmd.argv) =
      some ["run", "--rm", "--env-file", ".env", "-v", "/work:/app",
        "-v", "/home/u/.rit:/root/.rit", "-v", "/data:/data",
        "--name", "run-42", "run-42", "--debug"] ∧
    (["run", "--rm", "--env-file", ".env", "-v", "/work:/app",
        "-v", "/home/u/.rit:/root/.rit", "-v", "/data:/data",
        "--name", "run-42", "run-42", "--debug"] : List String).getLast? ≠
      some sampleSetup.ContainerId := by
  decide

/-- C8, amended: for every setup, input type and strategy that leaves the
argument vector of the command as it received it, when `runDocker` succeeds
the invocation it returns has the argument vector `runDocker` built, which
ends in `--name id id` with `id = setup.ContainerId`: the value of `--name` and
the final argument are both the `ContainerId`. -/
theorem name_and_target {σ : Type} (ru : RunManager σ) (host : Host σ) (setup : Setup)
    (inputType : TermInputType) (verbose : Bool) (flags : FlagSet) (w : World σ)
    (runner : InputRunner σ) (cmd : Cmd)
    (hres : (ru.Resolve inputType w.st).1 = .ok runner)
    (hargs : ∀ c s f st, (runner.Inputs c s f st).1.2.Args = c.Args)
    (hok : (runDocker ru host setup inputType verbose flags w).1 = .ok cmd) :
    cmd.argv = dockerArgs ru.homeDir setup inputType (host.isTerminal w.st) ∧
    (∃ front, cmd.argv = front ++ ["--name", setup.ContainerId, setup.ContainerId]) ∧
    optValues "--name" cmd.argv = [setup.ContainerId] ∧
    cmd.argv.getLast? = some setup.ContainerId := by
  have hcmd := runDocker_ok_cmd ru host setup inputType verbose flags w runner cmd hres hok
  have hA : cmd.argv = dockerArgs ru.homeDir setup inputType (host.isTerminal w.st) := by
    rw [hcmd]
    unfold Cmd.argv
    rw [setEnvs_args, hargs]
    rfl
  refine ⟨hA, ?_, ?_, ?_⟩
  · rw [hA, dockerArgs_eq]
    exact ⟨_, rfl⟩
  · rw [hA, dockerArgs_eq, optValues_name_shape]
  · rw [hA, dockerArgs_eq, List.getLast?_append]
    rfl

/-- C8, witness: the end-to-end scenario, whose strategy adds nothing. -/
theorem name_and_target_witness :
    (runDocker (scriptedManager (quietScript "prod") "/home/u")
        (scriptedHost (quietScript "prod") sampleNames) sampleSetup TermInputType.Flag true
        { values := [] } (World.start MemFS.empty)).1 = .ok sampleCmd ∧
    (sampleCmd.argv = dockerArgs "/home/u" sampleSetup TermInputType.Flag false ∧
      (∃ front, sampleCmd.argv = front ++ ["--name", "run-42", "run-42"]) ∧
      optValues "--name" sampleCmd.argv = ["run-42"] ∧
      sampleCmd.argv.getLast? = some "run-42") :=
  ⟨rfl,
   name_and_target (scriptedManager (quietScript "prod") "/home/u")
     (scriptedHost (quietScript "prod") sampleNames) sampleSetup TermInputType.Flag true
     { values := [] } (World.start MemFS.empty) (scriptedRunner (quietScript "prod"))
     sampleCmd rfl (by intro c s f st; simp [scriptedRunner, quietScript]) rfl⟩

/-- C1, witness: a run whose `PreRun` fails. -/
theorem Run_preRun_failure_witness :
    (Run (scriptedManager preRunFails "/home/u") (scriptedHost preRunFails sampleNames)
        { Path := "demo" } TermInputType.Flag true { values := [] }
        (World.start MemFS.empty)).1 = some { msg := "pre-run failed" } ∧
    (Run (scriptedManager preRunFails "/home/u") (scriptedHost preRunFails sampleNames)
        { Path := "demo" } TermInputType.Flag true { values := [] }
        (World.start MemFS.empty)).2.log = [.preRun { Path := "demo" }] :=
  ⟨(Run_preRun_failure (scriptedManager preRunFails "/home/u")
      (scriptedHost preRunFails sampleNames) { Path := "demo" } TermInputType.Flag true
      { values := [] } (World.start MemFS.empty) { msg := "pre-run failed" } rfl).1,
   (Run_preRun_failure (scriptedManager preRunFails "/home/u")
      (scriptedHost preRunFails sampleNames) { Path := "demo" } TermInputType.Flag true
      { values := [] } (World.start MemFS.empty) { msg := "pre-run failed" } rfl).2.1⟩

/-- C2, witness: a run whose `Resolve` fails and whose cleanup fails too: the
build error is returned and `PostRun` is called once. -/
theorem Run_build_failure_witness :
    (Run (scriptedManager resolveFails "/home/u") (scriptedHost resolveFails sampleNames)
        { Path := "demo" } TermInputType.Flag true { values := [] }
        (World.start MemFS.empty)).1 = some { msg := "unsupported input mode" } ∧
    (Run (scriptedManager resolveFails "/home/u") (scriptedHost resolveFails sampleNames)
        { Path := "demo" } TermInputType.Flag true { values := [] }
        (World.start MemFS.empty)).2.log.filter Event.isPostRun =
      [.postRun sampleSetup true] ∧
    (Run (scriptedManager resolveFails "/home/u") (scriptedHost resolveFails sampleNames)
        { Path := "demo" } TermInputType.Flag true { values := [] }
        (World.start MemFS.empty)).2.log.filter Event.isCmdRun = [] :=
  ⟨(Run_build_failure (scriptedManager resolveFails "/home/u")
      (scriptedHost resolveFails sampleNames) { Path := "demo" } TermInputType.Flag true
      { values := [] } (World.start MemFS.empty) sampleSetup
      { msg := "unsupported input mode" } rfl rfl).1,
   (Run_build_failure (scriptedManager resolveFails "/home/u")
      (scriptedHost resolveFails sampleNames) { Path := "demo" } TermInputType.Flag true
      { values := [] } (World.start MemFS.empty) sampleSetup
      { msg := "unsupported input mode" } rfl rfl).2.2.1,
   (Run_build_failure (scriptedManager resolveFails "/home/u")
      (scriptedHost resolveFails sampleNames) { Path := "demo" } TermInputType.Flag true
      { values := [] } (World.start MemFS.empty) sampleSetup
      { msg := "unsupported input mode" } rfl rfl).2.2.2⟩

/-- C3, witness: a run whose execution succeeds and whose cleanup fails: no
error is returned, and the cleanup follows the execution. -/
theorem Run_executes_witness :
    (Run (scriptedManager cleanupFails "/home/u") (scriptedHost cleanupFails sampleNames)
        { Path := "demo" } TermInputType.Flag true { values := [] }
        (World.start MemFS.empty)).1 = none ∧
    (Run (scriptedManager cleanupFails "/home/u") (scriptedHost cleanupFails sampleNames)
        { Path := "demo" } TermInputType.Flag true { values := [] }
        (World.start MemFS.empty)).2.log.filter Event.isPostRun =
      [.postRun sampleSetup true] ∧
    (Run (scriptedManager cleanupFails "/home/u") (scriptedHost cleanupFails sampleNames)
        { Path := "demo" } TermInputType.Flag true { values := [] }
        (World.start MemFS.empty)).2.log.filter Event.isCmdRun = [.cmdRun sampleCmd] :=
  ⟨(Run_executes (scriptedManager cleanupFails "/home/u")
      (scriptedHost cleanupFails sampleNames) { Path := "demo" } TermInputType.Flag true
      { values := [] } (World.start MemFS.empty) sampleSetup sampleCmd rfl rfl).1,
   (Run_executes (scriptedManager cleanupFails "/home/u")
      (scriptedHost cleanupFails sampleNames) { Path := "demo" } TermInputType.Flag true
      { values := [] } (World.start MemFS.empty) sampleSetup sampleCmd rfl rfl).2.2.1,
   (Run_executes (scriptedManager cleanupFails "/home/u")
      (scriptedHost cleanupFails sampleNames) { Path := "demo" } TermInputType.Flag true
      { values := [] } (World.start MemFS.empty) sampleSetup sampleCmd rfl rfl).2.2.2⟩

/-! ## The environment channel over the in-memory store -/

/-- The content of a file holding two runs of lines. -/
theorem fileOf_append (xs ys : List String) : fileOf (xs ++ ys) = fileOf xs ++ fileOf ys := by
  induction xs with
  | nil => simp [fileOf]
  | cons x xs ih => simp [fileOf, ih, String.append_assoc]

/-- One round of the loop over a store whose quota is used up: the call fails
and the store is as before. -/
theorem mem_writeEnv_full (ru : RunManager MemFS) (hfile : ru.file = memFile) (e : String)
    (w : World MemFS) (hq : w.st.quota = some 0) :
    (writeEnv ru e w).1 = some errNoSpace ∧ (writeEnv ru e w).2.st = w.st := by
  rw [writeEnv_result, writeEnv_st, hfile]
  simp only [memFile, MemFS.Exists, MemFS.Write, MemFS.Append, MemFS.spend, hq]
  rcases hf : w.st.files envFile with _ | old <;> simp

/-- One round of the loop over a store with quota left: the line is added at
the end of the file, which is created when absent. -/
theorem mem_writeEnv_ok (ru : RunManager MemFS) (hfile : ru.file = memFile) (e : String)
    (w : World MemFS) (fs1 : MemFS) (hq : w.st.spend = some fs1) :
    (writeEnv ru e w).1 = none ∧
    (writeEnv ru e w).2.st =
      fs1.put envFile ((w.st.files envFile).getD "" ++ (e ++ "\n")) := by
  rw [writeEnv_result, writeEnv_st, hfile]
  simp only [memFile, MemFS.Exists, MemFS.Write, MemFS.Append, hq]
  rcases hf : w.st.files envFile with _ | old <;> simp

/-- The loop of `setEnvs` over the in-memory store: it writes the entries the
quota allows, at the end of the file, and fails if and only if the quota does
not allow them all. -/
theorem mem_writeEnvs (ru : RunManager MemFS) (hfile : ru.file = memFile)
    (es : List String) (w : World MemFS) :
    (writeEnvs ru es w).1 =
      (if (allowed w.st.quota es).length = es.length then none else some errNoSpace) ∧
    (writeEnvs ru es w).2.st.files envFile =
      (if allowed w.st.quota es = [] then w.st.files envFile
       else some ((w.st.files envFile).getD "" ++ fileOf (allowed w.st.quota es))) := by
  induction es generalizing w with
  | nil =>
    rw [writeEnvs_nil]
    rcases hq : w.st.quota with _ | k <;> simp [allowed]
  | cons e es ih =>
    rcases hq : w.st.quota with _ | k
    · have hs : w.st.spend = some w.st := by simp [MemFS.spend, hq]
      obtain ⟨h1, h2⟩ := mem_writeEnv_ok ru hfile e w w.st hs
      rw [writeEnvs_cons_ok ru e es w h1]
      obtain ⟨i1, i2⟩ := ih (writeEnv ru e w).2
      rw [i1, i2, h2]
      simp only [MemFS.put, hq, allowed, if_true]
      refine ⟨by simp, ?_⟩
      cases es with
      | nil => simp [fileOf]
      | cons e2 es2 => simp [fileOf, String.append_assoc]
    · cases k with
      | zero =>
        obtain ⟨h1, h2⟩ := mem_writeEnv_full ru hfile e w hq
        rw [writeEnvs_cons_error ru e es w errNoSpace h1, h2]
        simp [allowed]
      | succ k =>
        have hs : w.st.spend = some { w.st with quota := some k } := by
          simp [MemFS.spend, hq]
        obtain ⟨h1, h2⟩ := mem_writeEnv_ok ru hfile e w _ hs
        rw [writeEnvs_cons_ok ru e es w h1]
        obtain ⟨i1, i2⟩ := ih (writeEnv ru e w).2
        rw [i1, i2, h2]
        simp only [MemFS.put, allowed, List.take_succ_cons, List.length_cons, if_true]
        refine ⟨by simp, ?_⟩
        by_cases hk : es.take k = []
        · simp [hk, fileOf]
        · simp [hk, fileOf, String.append_assoc]

/-- C4, counterexample: on a new invocation with context `prod` and
`verbose = true`, the process environment `setEnvs` leaves starts with the
working-directory variable and has the container flag fourth; it is not the
environment in the order the claim gives, whichever of the two context names
is put first. -/
theorem setEnvs_order_counterexample :
    (envChannel sampleNames "/home/u" "prod" true MemFS.empty).1.2.Env =
      ["CURRENT_PWD=/app", "CONTEXT=prod", "VERBOSE_MODE=true", "DOCKER_EXECUTION=true",
        "ENV=prod"] ∧
    (envChannel sampleNames "/home/u" "prod" true MemFS.empty).1.2.Env ≠
      specOrderEnvs sampleNames "/app" "prod" true ∧
    (envChannel sampleNames "/home/u" "prod" true MemFS.empty).1.2.Env ≠
      ["DOCKER_EXECUTION=true", "CURRENT_PWD=/app", "CONTEXT=prod", "ENV=prod",
        "VERBOSE_MODE=true"] := by
  decide

/-- C4, amended: whenever `env.Find` returns a context, `setEnvs` (called with
the in-container directory `/app`) appends exactly five variables to the
process environment of the invocation, after what it already held, in this
order: `PwdEnv=/app`, `CtxEnv=<current>`, `VerboseEnv=true|false`,
`DockerExecutionEnv=true`, `Env=<current>`; they are the five variables the
claim lists, in another order. -/
theorem setEnvs_env {σ : Type} (ru : RunManager σ) (host : Host σ) (cmd : Cmd)
    (verbose : Bool) (w : World σ) (holder : EnvHolder)
    (hfind : (ru.env w.st).1 = .ok holder) :
    (setEnvs ru host cmd dockerPwd verbose w).1.2.Env =
      cmd.Env ++
        [host.names.PwdEnv ++ "=" ++ "/app",
         host.names.CtxEnv ++ "=" ++ holder.Current,
         host.names.VerboseEnv ++ "=" ++ (if verbose then "true" else "false"),
         host.names.DockerExecutionEnv ++ "=" ++ "true",
         host.names.Env ++ "=" ++ holder.Current] ∧
    List.Perm
      [host.names.PwdEnv ++ "=" ++ "/app",
       host.names.CtxEnv ++ "=" ++ holder.Current,
       host.names.VerboseEnv ++ "=" ++ (if verbose then "true" else "false"),
       host.names.DockerExecutionEnv ++ "=" ++ "true",
       host.names.Env ++ "=" ++ holder.Current]
      (specOrderEnvs host.names "/app" holder.Current verbose) := by
  rw [setEnvs_find_ok ru host cmd dockerPwd verbose w holder hfind]
  have hfb : formatBool verbose = (if verbose then "true" else "false") := by
    cases verbose <;> rfl
  refine ⟨?_, ?_⟩
  · simp [requiredEnvs, envPattern, dockerPwd, hfb]
  · simp only [specOrderEnvs, envPattern, hfb]
    refine List.Perm.trans (List.Perm.cons _ (List.Perm.cons _ (List.Perm.swap _ _ _))) ?_
    refine List.Perm.trans (List.Perm.cons _ (List.Perm.swap _ _ _)) ?_
    refine List.Perm.trans (List.Perm.swap _ _ _) ?_
    refine List.Perm.cons _ ?_
    refine List.Perm.trans (List.Perm.cons _ (List.Perm.cons _ (List.Perm.swap _ _ _))) ?_
    exact List.Perm.cons _ (List.Perm.swap _ _ _)

/-- C4, witness: a new invocation over the empty store, context `prod`. -/
theorem setEnvs_env_witness :
    (envChannel sampleNames "/home/u" "prod" true MemFS.empty).1.2.Env =
      [] ++ ["CURRENT_PWD" ++ "=" ++ "/app", "CONTEXT" ++ "=" ++ "prod",
        "VERBOSE_MODE" ++ "=" ++ (if true then "true" else "false"),
        "DOCKER_EXECUTION" ++ "=" ++ "true", "ENV" ++ "=" ++ "prod"] :=
  (setEnvs_env (scriptedManager (quietScript "prod") "/home/u")
    (scriptedHost (quietScript "prod") sampleNames) (execCommand "docker" []) true
    (World.start MemFS.empty) { Current := "prod" } rfl).1

/-- The loop of `setEnvs` over a store without a limit leaves a store without
a limit. -/
theorem mem_writeEnvs_quota (ru : RunManager MemFS) (hfile : ru.file = memFile)
    (es : List String) (w : World MemFS) (hq : w.st.quota = none) :
    (writeEnvs ru es w).2.st.quota = none := by
  induction es generalizing w with
  | nil => rw [writeEnvs_nil]; exact hq
  | cons e es ih =>
    have hs : w.st.spend = some w.st := by simp [MemFS.spend, hq]
    obtain ⟨h1, h2⟩ := mem_writeEnv_ok ru hfile e w w.st hs
    rw [writeEnvs_cons_ok ru e es w h1]
    apply ih
    rw [h2]
    exact hq

/-- The method `setEnvs` on a new invocation over a store without a limit
leaves a store without a limit. -/
theorem envChannel_quota (names : EnvNames) (homeDir current : String) (verbose : Bool)
    (fs : MemFS) (hq : fs.quota = none) :
    (envChannel names homeDir current verbose fs).2.st.quota = none := by
  unfold envChannel
  rw [setEnvs_find_ok _ _ _ _ _ _ { Current := current } rfl]
  exact mem_writeEnvs_quota _ rfl _ _ hq

/-- The method `setEnvs` on a new invocation over the in-memory store: its
result and the environment file it leaves. -/
theorem envChannel_file (names : EnvNames) (homeDir current : String) (verbose : Bool)
    (fs : MemFS) :
    (envChannel names homeDir current verbose fs).1.1 =
      (if (allowed fs.quota (requiredEnvs names dockerPwd current verbose)).length = 5
       then none else some errNoSpace) ∧
    (envChannel names homeDir current verbose fs).2.st.files envFile =
      (if allowed fs.quota (requiredEnvs names dockerPwd current verbose) = []
       then fs.files envFile
       else some ((fs.files envFile).getD "" ++
         fileOf (allowed fs.quota (requiredEnvs names dockerPwd current verbose)))) := by
  unfold envChannel
  rw [setEnvs_find_ok _ _ _ _ _ _ { Current := current } rfl]
  obtain ⟨h1, h2⟩ := mem_writeEnvs (scriptedManager (quietScript current) homeDir) rfl
    ((execCommand "docker" []).Env ++
      requiredEnvs (scriptedHost (quietScript current) names).names dockerPwd current verbose)
    (afterFind (scriptedManager (quietScript current) homeDir) (World.start fs))
  refine ⟨?_, ?_⟩
  · rw [h1]
    rfl
  · rw [h2]
    rfl

/-- C5, counterexample: over a store with no environment file, context `prod`
and `verbose = true`, the file `setEnvs` leaves starts with the
working-directory line; it is not the file holding the five lines in the order
the claim gives. -/
theorem env_file_counterexample :
    (envChannel sampleNames "/home/u" "prod" true MemFS.empty).2.st.files ".env" =
      some "CURRENT_PWD=/app\nCONTEXT=prod\nVERBOSE_MODE=true\nDOCKER_EXECUTION=true\nENV=prod\n" ∧
    (envChannel sampleNames "/home/u" "prod" true MemFS.empty).2.st.files ".env" ≠
      some (fileOf (specOrderEnvs sampleNames "/app" "prod" true)) := by
  decide

/-- C5, amended: over the in-memory store without a limit, `setEnvs` on an
invocation with an empty process environment, the environment file being
absent or empty, succeeds and leaves a file holding exactly five lines, each
`KEY=VALUE` followed by a newline, in the order `PwdEnv`, `CtxEnv`,
`VerboseEnv`, `DockerExecutionEnv`, `Env`; applied a second time to a new
invocation over the store the first call left, it succeeds and the file holds
those five lines unchanged followed by the five lines of the second call, ten
in all. -/
theorem env_file_content (names : EnvNames) (homeDir current current2 : String)
    (verbose verbose2 : Bool) (fs : MemFS) (hq : fs.quota = none)
    (hfile : fs.files envFile = none ∨ fs.files envFile = some "") :
    (envChannel names homeDir current verbose fs).1.1 = none ∧
    (envChannel names homeDir current verbose fs).2.st.files envFile =
      some (fileOf
        [envPattern names.PwdEnv "/app", envPattern names.CtxEnv current,
         envPattern names.VerboseEnv (formatBool verbose),
         envPattern names.DockerExecutionEnv "true", envPattern names.Env current]) ∧
    (envChannel names homeDir current2 verbose2
        (envChannel names homeDir current verbose fs).2.st).1.1 = none ∧
    (envChannel names homeDir current2 verbose2
        (envChannel names homeDir current verbose fs).2.st).2.st.files envFile =
      some (fileOf
        ([envPattern names.PwdEnv "/app", envPattern names.CtxEnv current,
          envPattern names.VerboseEnv (formatBool verbose),
          envPattern names.DockerExecutionEnv "true", envPattern names.Env current] ++
         [envPattern names.PwdEnv "/app", envPattern names.CtxEnv current2,
          envPattern names.VerboseEnv (formatBool verbose2),
          envPattern names.DockerExecutionEnv "true", envPattern names.Env current2])) ∧
    ([envPattern names.PwdEnv "/app", envPattern names.CtxEnv current,
      envPattern names.VerboseEnv (formatBool verbose),
      envPattern names.DockerExecutionEnv "true", envPattern names.Env current] ++
     [envPattern names.PwdEnv "/app", envPattern names.CtxEnv current2,
      envPattern names.VerboseEnv (formatBool verbose2),
      envPattern names.DockerExecutionEnv "true", envPattern names.Env current2]).length =
      10 := by
  obtain ⟨a1, a2⟩ := envChannel_file names homeDir current verbose fs
  obtain ⟨b1, b2⟩ := envChannel_file names homeDir current2 verbose2
    (envChannel names homeDir current verbose fs).2.st
  have hq2 : (envChannel names homeDir current verbose fs).2.st.quota = none :=
    envChannel_quota names homeDir current verbose fs hq
  refine ⟨?_, ?_, ?_, ?_, rfl⟩
  · rw [a1, hq]
    rfl
  · rw [a2, hq]
    rcases hfile with h | h <;> simp [h, allowed, requiredEnvs, dockerPwd]
  · rw [b1, hq2]
    rfl
  · rw [b2, hq2, a2, hq]
    rw [fileOf_append]
    rcases hfile with h | h <;> simp [h, allowed, requiredEnvs, dockerPwd]

/-- C5, witness: two calls in a row over the store with no file. -/
theorem env_file_content_witness :
    (MemFS.empty.quota = none ∧
      (MemFS.empty.files envFile = none ∨ MemFS.empty.files envFile = some "")) ∧
    (envChannel sampleNames "/home/u" "prod" true MemFS.empty).2.st.files envFile =
      some (fileOf
        [envPattern "CURRENT_PWD" "/app", envPattern "CONTEXT" "prod",
         envPattern "VERBOSE_MODE" (formatBool true),
         envPattern "DOCKER_EXECUTION" "true", envPattern "ENV" "prod"]) ∧
    (envChannel sampleNames "/home/u" "dev" false
        (envChannel sampleNames "/home/u" "prod" true MemFS.empty).2.st).2.st.files envFile =
      some (fileOf
        ([envPattern "CURRENT_PWD" "/app", envPattern "CONTEXT" "prod",
          envPattern "VERBOSE_MODE" (formatBool true),
          envPattern "DOCKER_EXECUTION" "true", envPattern "ENV" "prod"] ++
         [envPattern "CURRENT_PWD" "/app", envPattern "CONTEXT" "dev",
          envPattern "VERBOSE_MODE" (formatBool false),
          envPattern "DOCKER_EXECUTION" "true", envPattern "ENV" "dev"])) :=
  ⟨⟨rfl, Or.inl rfl⟩,
   (env_file_content sampleNames "/home/u" "prod" "dev" true false MemFS.empty rfl
      (Or.inl rfl)).2.1,
   (env_file_content sampleNames "/home/u" "prod" "dev" true false MemFS.empty rfl
      (Or.inl rfl)).2.2.2.1⟩

/-- C9: in the end-to-end scenario, for every home directory `h`, context and
variable names, `runDocker` succeeds; the argument vector of the invocation is
exactly `run --rm --env-file .env -v /work:/app -v h/.rit:/root/.rit
-v /data:/data --name run-42 run-42`, without `-it`; and the environment file,
absent beforehand, holds five lines, which are the five required lines, the
verbosity line carrying the text `true`. -/
theorem end_to_end (names : EnvNames) (h current : String) (flags : FlagSet) :
    ((endToEnd names h current flags).1.toOption.map Cmd.argv) =
      some ["run", "--rm", "--env-file", ".env", "-v", "/work:/app",
        "-v", h ++ "/.rit:/root/.rit", "-v", "/data:/data",
        "--name", "run-42", "run-42"] ∧
    "-it" ∉ ["run", "--rm", "--env-file", ".env", "-v", "/work:/app",
        "-v", h ++ "/.rit:/root/.rit", "-v", "/data:/data",
        "--name", "run-42", "run-42"] ∧
    (endToEnd names h current flags).2.st.files ".env" =
      some (fileOf
        [names.PwdEnv ++ "=" ++ "/app", names.CtxEnv ++ "=" ++ current,
         names.VerboseEnv ++ "=" ++ "true", names.DockerExecutionEnv ++ "=" ++ "true",
         names.Env ++ "=" ++ current]) ∧
    List.Perm
      [names.PwdEnv ++ "=" ++ "/app", names.CtxEnv ++ "=" ++ current,
       names.VerboseEnv ++ "=" ++ "true", names.DockerExecutionEnv ++ "=" ++ "true",
       names.Env ++ "=" ++ current]
      (specOrderEnvs names "/app" current true) := by
  have hres : ((scriptedManager (quietScript current) h).Resolve TermInputType.Flag
      (World.start MemFS.empty).st).1 = .ok (scriptedRunner (quietScript current)) := rfl
  have hrun := runDocker_inputs_ok (scriptedManager (quietScript current) h)
    (scriptedHost (quietScript current) names) sampleSetup TermInputType.Flag true flags
    (World.start MemFS.empty) (scriptedRunner (quietScript current)) hres rfl
  have hset := setEnvs_find_ok (scriptedManager (quietScript current) h)
    (scriptedHost (quietScript current) names)
    ((scriptedRunner (quietScript current)).Inputs
      (builtCmd (scriptedManager (quietScript current) h)
        (scriptedHost (quietScript current) names) sampleSetup TermInputType.Flag
        (World.start MemFS.empty)) sampleSetup flags
      ((scriptedManager (quietScript current) h).Resolve TermInputType.Flag
        (World.start MemFS.empty).st).2).1.2
    dockerPwd true
    (afterInputs (scriptedManager (quietScript current) h)
      (scriptedHost (quietScript current) names) sampleSetup TermInputType.Flag flags
      (scriptedRunner (quietScript current)) (World.start MemFS.empty))
    { Current := current } rfl
  refine ⟨?_, ?_, ?_, ?_⟩
  · unfold endToEnd
    rw [hrun, hset]
    simp only []
    rw [(mem_writeEnvs (scriptedManager (quietScript current) h) rfl _ _).1]
    rfl
  · have hhome : h ++ "/.rit:/root/.rit" ≠ "-it" := append_ne_it _ _ (by decide)
    simp only [List.mem_cons, List.mem_singleton, List.not_mem_nil, or_false, not_or]
    refine ⟨by decide, by decide, by decide, by decide, by decide, by decide, by decide,
      fun hh => hhome hh.symm, by decide, by decide, by decide, by decide, by decide⟩
  · unfold endToEnd
    rw [hrun, hset]
    simp only []
    have hfile := (mem_writeEnvs (scriptedManager (quietScript current) h) rfl
      ([] ++ [] ++ requiredEnvs names dockerPwd current true)
      (afterFind (scriptedManager (quietScript current) h)
        (afterInputs (scriptedManager (quietScript current) h)
          (scriptedHost (quietScript current) names) sampleSetup TermInputType.Flag flags
          (scriptedRunner (quietScript current)) (World.start MemFS.empty)))).2
    refine Eq.trans hfile ?_
    have hst : (afterFind (scriptedManager (quietScript current) h)
        (afterInputs (scriptedManager (quietScript current) h)
          (scriptedHost (quietScript current) names) sampleSetup TermInputType.Flag flags
          (scriptedRunner (quietScript current)) (World.start MemFS.empty))).st =
        MemFS.empty := rfl
    rw [hst]
    simp [allowed, requiredEnvs, MemFS.empty, envPattern, dockerPwd, formatBool, fileOf]
  · simp only [specOrderEnvs, envPattern, formatBool]
    refine List.Perm.trans (List.Perm.cons _ (List.Perm.cons _ (List.Perm.swap _ _ _))) ?_
    refine List.Perm.trans (List.Perm.cons _ (List.Perm.swap _ _ _)) ?_
    refine List.Perm.trans (List.Perm.swap _ _ _) ?_
    refine List.Perm.cons _ ?_
    refine List.Perm.trans (List.Perm.cons _ (List.Perm.cons _ (List.Perm.swap _ _ _))) ?_
    exact List.Perm.cons _ (List.Perm.swap _ _ _)

/-! ## A failing write -/

/-- One round of the loop in terms of the call it makes. -/
theorem writeEnv_eq {σ : Type} (ru : RunManager σ) (e : String) (w : World σ) :
    writeEnv ru e w =
      ((fileCall ru e w.st).1,
       { st := (fileCall ru e w.st).2,
         log := w.log ++ [.fileExists envFile, fileCallEvent ru e w.st] }) := by
  unfold writeEnv World.emit fileCall fileCallEvent
  by_cases h : ru.file.Exists envFile w.st = true <;> simp [h]

/-- The loop over two runs of entries, the first of which is written without
failure, goes on with the second from the world the first left. -/
theorem writeEnvs_append {σ : Type} (ru : RunManager σ) (pre rest : List String)
    (w : World σ) (h : (writeEnvs ru pre w).1 = none) :
    writeEnvs ru (pre ++ rest) w = writeEnvs ru rest (writeEnvs ru pre w).2 := by
  induction pre generalizing w with
  | nil => rfl
  | cons e pre ih =>
    rcases hr : (writeEnv ru e w).1 with _ | err
    · rw [writeEnvs_cons_ok ru e pre w hr] at h ⊢
      rw [List.cons_append, writeEnvs_cons_ok ru e (pre ++ rest) w hr]
      exact ih _ h
    · rw [writeEnvs_cons_error ru e pre w err hr] at h
      simp at h

/-- C10: let the strategy succeed and `env.Find` return a context, and let the
environment of the invocation be `pre ++ e :: post`, where the entries of
`pre` are written without failure and the `Write` or `Append` for `e` fails
with `err`.  Then `setEnvs` returns `err`; the log ends with the `Exists` and
the failing call for `e`, right after the calls for `pre`, so that no call is
made for `post` and none to undo what was written; the state is the one the
failing call left on top of the state the calls for `pre` left; and
`runDocker` returns `err`, no invocation, in that same world. -/
theorem write_failure_aborts {σ : Type} (ru : RunManager σ) (host : Host σ) (setup : Setup)
    (inputType : TermInputType) (verbose : Bool) (flags : FlagSet) (w : World σ)
    (runner : InputRunner σ) (holder : EnvHolder) (pre : List String) (e : String)
    (post : List String) (err : GoError)
    (hres : (ru.Resolve inputType w.st).1 = .ok runner)
    (hin : (runner.Inputs (builtCmd ru host setup inputType w) setup flags
      (ru.Resolve inputType w.st).2).1.1 = none)
    (hfind : (ru.env (afterInputs ru host setup inputType flags runner w).st).1 = .ok holder)
    (henv : (strategyCmd ru host setup inputType flags runner w).Env ++
      requiredEnvs host.names dockerPwd holder.Current verbose = pre ++ e :: post)
    (hpre : (writeEnvs ru pre
      (afterFind ru (afterInputs ru host setup inputType flags runner w))).1 = none)
    (hfail : (fileCall ru e (writeEnvs ru pre
      (afterFind ru (afterInputs ru host setup inputType flags runner w))).2.st).1 =
        some err) :
    (setEnvs ru host (strategyCmd ru host setup inputType flags runner w) dockerPwd verbose
      (afterInputs ru host setup inputType flags runner w)).1.1 = some err ∧
    (setEnvs ru host (strategyCmd ru host setup inputType flags runner w) dockerPwd verbose
      (afterInputs ru host setup inputType flags runner w)).2.log =
      (writeEnvs ru pre
        (afterFind ru (afterInputs ru host setup inputType flags runner w))).2.log ++
        [.fileExists envFile,
         fileCallEvent ru e (writeEnvs ru pre
          (afterFind ru (afterInputs ru host setup inputType flags runner w))).2.st] ∧
    (setEnvs ru host (strategyCmd ru host setup inputType flags runner w) dockerPwd verbose
      (afterInputs ru host setup inputType flags runner w)).2.st =
      (fileCall ru e (writeEnvs ru pre
        (afterFind ru (afterInputs ru host setup inputType flags runner w))).2.st).2 ∧
    runDocker ru host setup inputType verbose flags w =
      (.error err,
       (setEnvs ru host (strategyCmd ru host setup inputType flags runner w) dockerPwd
        verbose (afterInputs ru host setup inputType flags runner w)).2) := by
  have hloop : writeEnvs ru (pre ++ e :: post)
      (afterFind ru (afterInputs ru host setup inputType flags runner w)) =
      (some err, (writeEnv ru e (writeEnvs ru pre
        (afterFind ru (afterInputs ru host setup inputType flags runner w))).2).2) := by
    rw [writeEnvs_append ru pre (e :: post) _ hpre]
    apply writeEnvs_cons_error
    rw [writeEnv_eq]
    exact hfail
  have hset := setEnvs_find_ok ru host (strategyCmd ru host setup inputType flags runner w)
    dockerPwd verbose (afterInputs ru host setup inputType flags runner w) holder hfind
  rw [henv, hloop] at hset
  have hrun := runDocker_inputs_ok ru host setup inputType verbose flags w runner hres hin
  refine ⟨?_, ?_, ?_, ?_⟩
  · rw [hset]
  · rw [hset, writeEnv_eq]
  · rw [hset, writeEnv_eq]
  · rw [hrun]
    have h1 : (setEnvs ru host (strategyCmd ru host setup inputType flags runner w) dockerPwd
        verbose (afterInputs ru host setup inputType flags runner w)).1.1 = some err := by
      rw [hset]
    unfold strategyCmd at h1 ⊢
    rw [h1]

/-- C10, witness: the end-to-end scenario over a store on which two calls
succeed and the third fails: the error of the store is returned, three calls
were made, and the file holds the two lines written before the failure. -/
theorem write_failure_aborts_witness :
    (runDocker (scriptedManager (quietScript "prod") "/home/u")
        (scriptedHost (quietScript "prod") sampleNames) sampleSetup TermInputType.Flag true
        { values := [] } (World.start twoCallsLeft)).1 = .error errNoSpace ∧
    (runDocker (scriptedManager (quietScript "prod") "/home/u")
        (scriptedHost (quietScript "prod") sampleNames) sampleSetup TermInputType.Flag true
        { values := [] } (World.start twoCallsLeft)).2.log.filter Event.isFileMutation =
      [.fileWrite ".env" "CURRENT_PWD=/app\n", .fileAppend ".env" "CONTEXT=prod\n",
       .fileAppend ".env" "VERBOSE_MODE=true\n"] ∧
    (runDocker (scriptedManager (quietScript "prod") "/home/u")
        (scriptedHost (quietScript "prod") sampleNames) sampleSetup TermInputType.Flag true
        { values := [] } (World.start twoCallsLeft)).2.st.files ".env" =
      some "CURRENT_PWD=/app\nCONTEXT=prod\n" :=
  ⟨congrArg Prod.fst
      (write_failure_aborts (scriptedManager (quietScript "prod") "/home/u")
        (scriptedHost (quietScript "prod") sampleNames) sampleSetup TermInputType.Flag true
        { values := [] } (World.start twoCallsLeft) (scriptedRunner (quietScript "prod"))
        { Current := "prod" } ["CURRENT_PWD=/app", "CONTEXT=prod"] "VERBOSE_MODE=true"
        ["DOCKER_EXECUTION=true", "ENV=prod"] errNoSpace rfl rfl rfl (by decide) rfl
        rfl).2.2.2,
   by decide, by decide⟩

end Docker
